import Mathlib

/-!
Verification of the identity-reconciliation core of `src/main.py`
(Bitespeed identity service).

The embedding models the contact store (a SQLite table accessed through
SQLAlchemy) as a list of rows together with the autoincrement counter and a
logical clock supplying `datetime.utcnow()` values.  Each Python function of
`ContactService` and the `/identify` endpoint body (`identify_contact`)
becomes a Lean function over this state.  Python truthiness on optional
strings (`None` and `""` are falsy) and on integers (`0` is falsy) is
modelled explicitly, SQL `NULL` tests (`IS NOT NULL`) are the `Option.isSome`
tests, and `ORDER BY createdAt ASC` is an explicit sort.  Timestamps are
naturals; reads share the clock value, each insert advances it, so rows
created later carry strictly larger `createdAt`.
-/

namespace Bitespeed

/-- A row of the `contacts` table (class `Contact` in `src/main.py`). -/
structure Contact where
  id : Nat
  email : Option String
  phoneNumber : Option String
  linkedId : Option Nat
  linkPrecedence : String
  createdAt : Nat
  updatedAt : Nat
  deletedAt : Option Nat
deriving Repr, DecidableEq

/-- The database state: the table rows in insertion order, the sqlite
autoincrement counter (next id to assign, starting at 1) and the clock. -/
structure Store where
  contacts : List Contact
  nextId : Nat
  now : Nat
deriving Repr, DecidableEq

/-- The empty database. -/
def emptyStore : Store := { contacts := [], nextId := 1, now := 0 }

/-- Python truthiness of an optional string: `None` and `""` are falsy. -/
def truthy : Option String → Bool
  | none => false
  | some s => !(s == "")

/-- The response model `ContactResponse` (field name `primaryContatctId`
reproduces the source's spelling). -/
structure ContactResponse where
  primaryContatctId : Nat
  emails : List String
  phoneNumbers : List String
  secondaryContactIds : List Nat
deriving Repr, DecidableEq

/-- Stable-enough insertion of a row into a list ordered by `createdAt`:
models one step of the store's `ORDER BY createdAt ASC`. -/
def insertByCreated (c : Contact) : List Contact → List Contact
  | [] => [c]
  | d :: ds => if c.createdAt < d.createdAt then c :: d :: ds else d :: insertByCreated c ds

/-- Sort a row list by `createdAt` ascending (`ORDER BY createdAt ASC`). -/
def sortByCreated : List Contact → List Contact
  | [] => []
  | c :: cs => insertByCreated c (sortByCreated cs)

/-- The WHERE clause of `find_contacts_by_email_or_phone`:
`deletedAt IS NULL AND ((email = :email AND :email IS NOT NULL) OR
(phoneNumber = :phone AND :phone IS NOT NULL))`. -/
def matchesObs (email phone : Option String) (c : Contact) : Bool :=
  c.deletedAt == none &&
    ((email.isSome && c.email == email) || (phone.isSome && c.phoneNumber == phone))

/-- `ContactService.find_contacts_by_email_or_phone`. -/
def find_contacts_by_email_or_phone (s : Store) (email phone : Option String) :
    List Contact :=
  if !truthy email && !truthy phone then []
  else sortByCreated (s.contacts.filter (matchesObs email phone))

/-- The `primary_ids` set computed by `get_all_linked_contacts`: for each
matched contact, its own id if it is primary, else its `linkedId` when that
is truthy (Python `elif contact['linkedId']`, so a 0 or NULL link adds
nothing). Duplicates are irrelevant (set semantics via membership). -/
def rootList (contacts : List Contact) : List Nat :=
  contacts.foldr
    (fun c acc =>
      if c.linkPrecedence == "primary" then c.id :: acc
      else match c.linkedId with
        | some j => if j ≠ 0 then j :: acc else acc
        | none => acc)
    []

/-- The WHERE clause of the chain query:
`deletedAt IS NULL AND (id IN (primary_ids) OR linkedId IN (primary_ids))`
(`NULL IN (...)` is not true). -/
def inChains (roots : List Nat) (c : Contact) : Bool :=
  c.deletedAt == none &&
    (roots.contains c.id ||
      (match c.linkedId with
        | some j => roots.contains j
        | none => false))

/-- `ContactService.get_all_linked_contacts`: full chain membership,
non-deleted, ordered by `createdAt`; returns the input set unchanged when no
root ids were found. -/
def get_all_linked_contacts (s : Store) (contacts : List Contact) : List Contact :=
  if contacts.isEmpty then []
  else
    let roots := rootList contacts
    if roots.isEmpty then contacts
    else sortByCreated (s.contacts.filter (inChains roots))

/-- One comparison step of Python's `min(..., key=lambda x: x['createdAt'])`:
a strict comparison, so the earlier of two equal keys is kept. -/
def minStep (acc : Option Contact) (c : Contact) : Option Contact :=
  match acc with
  | none => some c
  | some m => if c.createdAt < m.createdAt then some c else some m

/-- Python's `min(contacts, key=lambda x: x['createdAt'])`: the first row
attaining the minimal `createdAt`. -/
def minByCreated (l : List Contact) : Option Contact :=
  l.foldl minStep none

/-- String list stored so far, one appended element of
`ContactService.consolidate_contacts`'s loop. -/
def pushIfNew (seen : List String) (v : String) : List String :=
  if seen.contains v then seen else seen ++ [v]

/-- One loop iteration of `ContactService.consolidate_contacts`: every row
other than the primary contributes its id, and its email/phone when truthy
and not yet listed. -/
def consStep (primary : Contact) (acc : List String × List String × List Nat)
    (c : Contact) : List String × List String × List Nat :=
  if c.id == primary.id then acc
  else
    (if truthy c.email then pushIfNew acc.1 (c.email.getD "") else acc.1,
     if truthy c.phoneNumber then pushIfNew acc.2.1 (c.phoneNumber.getD "") else acc.2.1,
     acc.2.2 ++ [c.id])

/-- `ContactService.consolidate_contacts`: root = first row of minimal
`createdAt`; its truthy email/phone first, then the loop over all rows. -/
def consolidate_contacts (contacts : List Contact) : Option ContactResponse :=
  match minByCreated contacts with
  | none => none
  | some primary =>
    let e0 := if truthy primary.email then [primary.email.getD ""] else []
    let p0 := if truthy primary.phoneNumber then [primary.phoneNumber.getD ""] else []
    let acc := contacts.foldl (consStep primary) (e0, p0, [])
    some { primaryContatctId := primary.id, emails := acc.1,
           phoneNumbers := acc.2.1, secondaryContactIds := acc.2.2 }

/-- `ContactService.create_contact`: insert a row with the next
autoincrement id; `createdAt = updatedAt = now`; advances id counter and
clock. Returns the refreshed row and the new store. -/
def create_contact (s : Store) (email phone : Option String)
    (linked_id : Option Nat) (precedence : String) : Contact × Store :=
  let c : Contact :=
    { id := s.nextId, email := email, phoneNumber := phone, linkedId := linked_id,
      linkPrecedence := precedence, createdAt := s.now, updatedAt := s.now,
      deletedAt := none }
  (c, { contacts := s.contacts ++ [c], nextId := s.nextId + 1, now := s.now + 1 })

/-- The row `create_contact` inserts, as a standalone expression. -/
def newRow (s : Store) (email phone : Option String) (linked_id : Option Nat)
    (precedence : String) : Contact :=
  { id := s.nextId, email := email, phoneNumber := phone, linkedId := linked_id,
    linkPrecedence := precedence, createdAt := s.now, updatedAt := s.now,
    deletedAt := none }

/-- `ContactService.update_contact_to_secondary`:
`UPDATE contacts SET linkedId = :primary_id, linkPrecedence = 'secondary',
updatedAt = :now WHERE id = :contact_id`. -/
def update_contact_to_secondary (s : Store) (contact_id primary_id : Nat) : Store :=
  { s with contacts := s.contacts.map (fun c =>
      if c.id == contact_id then
        { c with linkedId := some primary_id, linkPrecedence := "secondary",
                 updatedAt := s.now }
      else c) }

/-- Errors surfaced by the endpoint: the 400 for missing input, and an
internal marker for branches where the Python would raise (never reached on
well-formed stores). -/
inductive RErr
  | invalidInput
  | internal
deriving Repr, DecidableEq

/-- The response for the terminal no-match branch of `identify_contact`. -/
def newContactView (email phone : Option String) (cid : Nat) : ContactResponse :=
  { primaryContatctId := cid,
    emails := if truthy email then [email.getD ""] else [],
    phoneNumbers := if truthy phone then [phone.getD ""] else [],
    secondaryContactIds := [] }

/-- The merge sub-step of `identify_contact`: if the candidate set holds more
than one primary, demote every primary other than the oldest one to a
secondary of the oldest. -/
def demotePass (s : Store) (all0 : List Contact) : Store :=
  let primary_contacts := all0.filter (fun c => c.linkPrecedence == "primary")
  if primary_contacts.length > 1 then
    match minByCreated primary_contacts with
    | some oldest_primary =>
        primary_contacts.foldl
          (fun st c =>
            if c.id ≠ oldest_primary.id then
              update_contact_to_secondary st c.id oldest_primary.id
            else st)
          s
    | none => s
  else s

/-- Pointwise effect of `demotePass` on a single stored row (proved equal to
the fold of UPDATE statements below): a row is rewritten exactly when its id
is the id of one of the non-oldest primaries of the candidate set. -/
def demApply (s : Store) (all0 : List Contact) (c : Contact) : Contact :=
  let primary_contacts := all0.filter (fun x => x.linkPrecedence == "primary")
  if primary_contacts.length > 1 then
    match minByCreated primary_contacts with
    | some oldest_primary =>
        if primary_contacts.any (fun p2 => decide (p2.id ≠ oldest_primary.id) && (c.id == p2.id)) then
          { c with linkedId := some oldest_primary.id, linkPrecedence := "secondary",
                   updatedAt := s.now }
        else c
    | none => c
  else c

/-- The `/identify` endpoint body (`identify_contact` in `src/main.py`):
validate, look up matches, create a primary when nothing matches, otherwise
expand to full chain membership, skip when the exact `(email, phone)` pair is
already present, else merge primaries and insert a new secondary, and finally
consolidate. -/
def identify_contact (s : Store) (email phone : Option String) :
    Except RErr (ContactResponse × Store) :=
  if !truthy email && !truthy phone then .error .invalidInput
  else
    let existing := find_contacts_by_email_or_phone s email phone
    if existing.isEmpty then
      let res := create_contact s email phone none "primary"
      .ok (newContactView email phone res.1.id, res.2)
    else
      let all0 := get_all_linked_contacts s existing
      if (all0.map (fun c => (c.email, c.phoneNumber))).contains (email, phone) then
        match consolidate_contacts all0 with
        | some resp => .ok (resp, s)
        | none => .error .internal
      else
        match minByCreated all0 with
        | none => .error .internal
        | some primary_contact =>
          let s1 := demotePass s all0
          let res := create_contact s1 email phone (some primary_contact.id) "secondary"
          let all1 := get_all_linked_contacts res.2 existing
          match consolidate_contacts all1 with
          | some resp => .ok (resp, res.2)
          | none => .error .internal

/-- Run one `/identify` call for its state effect only (errors leave the
store unchanged, as the endpoint writes nothing before validating). -/
def runIdentify (s : Store) (email phone : Option String) : Store :=
  match identify_contact s email phone with
  | .ok r => r.2
  | .error _ => s

/-! ### Fault-injected store

`identify_contact` again, but with every store operation (each SQL query and
each committed write) numbered and allowed to fail.  In the source every
write is followed by its own `db.commit()`, so a failing operation aborts
the request while all previously committed writes stay visible; the store
returned alongside the error is the state the database is left in.
Operation numbering: 0 = match query, 1 = create (no-match branch) or chain
query, then one per demotion update, then the secondary insert, then the
chain re-read. -/

/-- Errors of the fault-injected run. -/
inductive FErr
  | invalidInput
  | storageUnavailable
  | internal
deriving Repr, DecidableEq

/-- `identify_contact` with an injected failure schedule: `faults.getD k`
tells whether the k-th store operation of this call fails. -/
def identify_contact_faulty (s : Store) (faults : List Bool)
    (email phone : Option String) : Except FErr ContactResponse × Store :=
  if !truthy email && !truthy phone then (.error .invalidInput, s)
  else if faults.getD 0 false then (.error .storageUnavailable, s)
  else
    let existing := find_contacts_by_email_or_phone s email phone
    if existing.isEmpty then
      if faults.getD 1 false then (.error .storageUnavailable, s)
      else
        let res := create_contact s email phone none "primary"
        (.ok (newContactView email phone res.1.id), res.2)
    else if faults.getD 1 false then (.error .storageUnavailable, s)
    else
      let all0 := get_all_linked_contacts s existing
      if (all0.map (fun c => (c.email, c.phoneNumber))).contains (email, phone) then
        match consolidate_contacts all0 with
        | some resp => (.ok resp, s)
        | none => (.error .internal, s)
      else
        match minByCreated all0 with
        | none => (.error .internal, s)
        | some primary_contact =>
          let primary_contacts := all0.filter (fun c => c.linkPrecedence == "primary")
          let toDemote :=
            if primary_contacts.length > 1 then
              match minByCreated primary_contacts with
              | some oldest =>
                  (primary_contacts.filter (fun c => c.id ≠ oldest.id)).map
                    (fun c => (c.id, oldest.id))
              | none => []
            else []
          let dres := toDemote.foldl
            (fun (acc : Store × Nat × Bool) pr =>
              if acc.2.2 then acc
              else if faults.getD acc.2.1 false then (acc.1, acc.2.1, true)
              else (update_contact_to_secondary acc.1 pr.1 pr.2, acc.2.1 + 1, false))
            (s, 2, false)
          if dres.2.2 then (.error .storageUnavailable, dres.1)
          else if faults.getD dres.2.1 false then (.error .storageUnavailable, dres.1)
          else
            let res := create_contact dres.1 email phone (some primary_contact.id) "secondary"
            if faults.getD (dres.2.1 + 1) false then (.error .storageUnavailable, res.2)
            else
              let all1 := get_all_linked_contacts res.2 existing
              match consolidate_contacts all1 with
              | some resp => (.ok resp, res.2)
              | none => (.error .internal, res.2)

/-! ### Specification-side view construction

Definitions written from the specification's words for §6 of the spec
("re-read & consolidate"), used to compare `consolidate_contacts` against
the spec text. -/

/-- Keep the elements of a stream not already listed in `seen`, first
occurrence wins, threading everything emitted into `seen`. -/
def dedupSeen (seen : List String) : List String → List String
  | [] => []
  | x :: xs => if seen.contains x then dedupSeen seen xs else x :: dedupSeen (x :: seen) xs

/-- Spec reading, literal: "ordered list of distinct, non-null emails,
primary's own email first (if present), then every other member's email in
ascending `createdAt` order of that member, skipping duplicates already
listed" — with "non-null" read as `Option.isSome`. -/
def specEmailsLiteral (l : List Contact) (root : Contact) : List String :=
  let first := match root.email with | some e => [e] | none => []
  first ++ dedupSeen first
    (((sortByCreated l).filter (fun c => c.id ≠ root.id)).filterMap (fun c => c.email))

/-- A value that is "present" in the sense the code uses: non-null and
non-empty. -/
def presentVal : Option String → Option String
  | none => none
  | some e => if e == "" then none else some e

/-- Spec reading, amended: distinct present (non-null **and non-empty**)
emails, root's own first, then the other members' in ascending `createdAt`
order, duplicates skipped. -/
def specEmails (l : List Contact) (root : Contact) : List String :=
  let first := match presentVal root.email with | some e => [e] | none => []
  first ++ dedupSeen first
    (((sortByCreated l).filter (fun c => c.id ≠ root.id)).filterMap
      (fun c => presentVal c.email))

/-- Same rule for phone numbers. -/
def specPhones (l : List Contact) (root : Contact) : List String :=
  let first := match presentVal root.phoneNumber with | some e => [e] | none => []
  first ++ dedupSeen first
    (((sortByCreated l).filter (fun c => c.id ≠ root.id)).filterMap
      (fun c => presentVal c.phoneNumber))

/-- Spec: "ids of every non-primary member, in ascending `createdAt` order"
(the non-root members, the root being the consolidation primary). -/
def specSecondaryIds (l : List Contact) (root : Contact) : List Nat :=
  ((sortByCreated l).filter (fun c => c.id ≠ root.id)).map (fun c => c.id)

/-! ### Store well-formedness

The state invariants the resolver itself maintains from the empty store:
rows sit in creation order with strictly increasing timestamps, ids are the
autoincrement values (distinct, at least 1, below the counter), nothing is
soft-deleted (no code path sets `deletedAt`), and a row is secondary exactly
when it carries a link, the link pointing at an existing strictly older row.
Note this does *not* include "secondaries link to primaries" — the code does
not maintain that. -/
def WF (s : Store) : Prop :=
  s.contacts.Pairwise (fun a b => a.createdAt < b.createdAt) ∧
  (s.contacts.map (fun c => c.id)).Nodup ∧
  (∀ c ∈ s.contacts, 1 ≤ c.id ∧ c.id < s.nextId ∧ c.createdAt < s.now ∧ c.deletedAt = none) ∧
  (∀ c ∈ s.contacts,
    (c.linkPrecedence = "primary" ∧ c.linkedId = none) ∨
    (c.linkPrecedence = "secondary" ∧
      ∃ d ∈ s.contacts, c.linkedId = some d.id ∧ d.createdAt < c.createdAt))

/-! ### Concrete execution traces used by several claims -/

/-- Four calls from the empty store: two independent primaries, a secondary
of the second, then a linking observation that merges the two chains. -/
def bugStore : Store :=
  runIdentify
    (runIdentify
      (runIdentify
        (runIdentify emptyStore (some "a") (some "1"))
        (some "b") (some "2"))
      (some "b") (some "3"))
    (some "a") (some "2")

/-- A fifth call whose match set reaches the chain only through the stale
secondary of the demoted primary. -/
def call5 : Except RErr (ContactResponse × Store) :=
  identify_contact bugStore (some "c") (some "3")

/-- A store breaking `WF` (a row links to a *younger* row): used to refute
the unrestricted idempotence claim. -/
def cexStore : Store :=
  { contacts :=
      [ { id := 4, email := some "w", phoneNumber := some "8", linkedId := some 5,
          linkPrecedence := "secondary", createdAt := 1, updatedAt := 1, deletedAt := none },
        { id := 5, email := some "z", phoneNumber := some "9", linkedId := some 10,
          linkPrecedence := "secondary", createdAt := 10, updatedAt := 10, deletedAt := none },
        { id := 10, email := some "a", phoneNumber := some "1", linkedId := none,
          linkPrecedence := "primary", createdAt := 50, updatedAt := 50, deletedAt := none } ],
    nextId := 11, now := 100 }

/-- Store with a single primary whose email is the empty string (reachable:
`Resolve(email="", phone="1")` stores the empty string verbatim). -/
def emptyEmailStore : Store := runIdentify emptyStore (some "") (some "1")

/-- One primary `(a, 1)`, as left by a first call on the empty store. -/
def oneContactStore : Store := runIdentify emptyStore (some "a") (some "1")

/-- The response of `Resolve(a, 1)` against the empty store. -/
def oneResp : ContactResponse :=
  { primaryContatctId := 1, emails := ["a"], phoneNumbers := ["1"],
    secondaryContactIds := [] }

/-- The response of `Resolve(a, 2)` against `oneContactStore`. -/
def c9Resp : ContactResponse :=
  { primaryContatctId := 1, emails := ["a"], phoneNumbers := ["1", "2"],
    secondaryContactIds := [2] }

/-- The store after `Resolve(a, 2)` against `oneContactStore`. -/
def c9Store : Store := runIdentify oneContactStore (some "a") (some "2")

/-- A chain root used to instantiate general theorems at a concrete input. -/
def viewRoot : Contact :=
  { id := 1, email := some "a", phoneNumber := some "1", linkedId := none,
    linkPrecedence := "primary", createdAt := 0, updatedAt := 0, deletedAt := none }

/-- A two-member chain used to instantiate general theorems. -/
def viewPair : List Contact :=
  [ viewRoot,
    { id := 2, email := some "b", phoneNumber := some "1", linkedId := some 1,
      linkPrecedence := "secondary", createdAt := 3, updatedAt := 3, deletedAt := none } ]

/-- The store after `Resolve("A@X.com", -)` on the empty store, used to
instantiate the exact-matching theorem at a case-variant lookup. -/
def caseStore : Store := runIdentify emptyStore (some "A@X.com") none

/-- The single row `caseStore` holds: `A@X.com` stored verbatim. -/
def caseRow : Contact :=
  { id := 1, email := some "A@X.com", phoneNumber := none, linkedId := none,
    linkPrecedence := "primary", createdAt := 0, updatedAt := 0, deletedAt := none }

/-- The store after `Resolve("   ", -)` on the empty store: a whitespace-only
email accepted by validation and stored exactly as given. -/
def wsStore : Store := runIdentify emptyStore (some "   ") none

/-! ### Claim theorems: concrete executions -/

/-- **C1.** The merge step demotes the losing primary but never rewrites the
`linkedId` of that primary's pre-existing secondaries.  After
`Resolve(a,1); Resolve(b,2); Resolve(b,3); Resolve(a,2)` the fourth call
merges the chains: contact 2 is demoted under the surviving root 1, yet its
old secondary, contact 3, still has `linkedId = 2` instead of the surviving
root's id 1 — the rewrite the claim asserts does not happen. -/
theorem c1_merge_leaves_stale_secondary_links :
    (bugStore.contacts.find? (fun c => c.id == 2)).map
        (fun c => (c.linkPrecedence, c.linkedId)) = some ("secondary", some 1) ∧
    (bugStore.contacts.find? (fun c => c.id == 3)).map
        (fun c => (c.linkPrecedence, c.linkedId)) = some ("secondary", some 2) := by
  decide

/-- **C2.** The no-secondary→secondary invariant fails in a state reachable
from the empty store by four successful `Resolve` calls: `bugStore` holds a
secondary (contact 3) whose `linkedId` names another secondary (contact 2). -/
theorem c2_secondary_chain_reachable :
    bugStore.contacts.any (fun c =>
      c.linkPrecedence == "secondary" &&
        bugStore.contacts.any (fun d =>
          c.linkedId == some d.id && d.linkPrecedence == "secondary")) = true := by
  decide

/-- **C4.** A `Resolve` call whose candidate set contains no primary at all:
the fifth call's candidate set is `{contact 2, contact 3}` (both secondary),
and the code links the new row to — and reports as `primaryContactId` — the
oldest member, contact 2, which has `precedence = secondary`; the chosen
contact is not a minimum among members with `precedence = primary` as the
claim requires. -/
theorem c4_reported_primary_is_a_secondary :
    (call5.toOption.map (fun r => r.1.primaryContatctId) = some 2) ∧
    ((get_all_linked_contacts bugStore
        (find_contacts_by_email_or_phone bugStore (some "c") (some "3"))).filter
          (fun c => c.linkPrecedence == "primary") = []) ∧
    ((bugStore.contacts.find? (fun c => c.id == 2)).map
        (fun c => c.linkPrecedence) = some "secondary") := by
  decide

/-- **C5 counterexample.** A whitespace-only email (nonempty, but every
character whitespace, hence empty after trimming) must fail with
`InvalidInput` per the claim; the code applies no trimming and the call
proceeds, creating a contact that stores the whitespace verbatim. -/
theorem c5_whitespace_only_input_accepted :
    " ".toList.all (fun ch => ch.isWhitespace) = true ∧ " " ≠ "" ∧
    (identify_contact emptyStore (some " ") none).isOk = true ∧
    (identify_contact emptyStore (some " ") none).toOption.map
        (fun r => r.2.contacts.map (fun c => c.email)) = some [some " "] := by
  refine ⟨by decide, by decide, by decide, by decide⟩

/-- **C7 counterexample.** In `emptyEmailStore` the consolidation root
(contact 1, the reported primary) has the non-null email `some ""`, yet the
returned `emails` list omits it — the view keeps only non-*empty* values,
not all non-null ones; the literal spec-side list disagrees with the code's. -/
theorem c7_nonnull_empty_email_omitted :
    ((emptyEmailStore.contacts.find? (fun c => c.id == 1)).map (fun c => c.email) =
      some (some "")) ∧
    ((identify_contact emptyEmailStore (some "x") (some "1")).toOption.map
        (fun r => (r.1.primaryContatctId, r.1.emails)) = some (1, ["x"])) ∧
    specEmailsLiteral
        [ { id := 1, email := some "", phoneNumber := some "1", linkedId := none,
            linkPrecedence := "primary", createdAt := 0, updatedAt := 0, deletedAt := none },
          { id := 2, email := some "x", phoneNumber := some "1", linkedId := some 1,
            linkPrecedence := "secondary", createdAt := 1, updatedAt := 1, deletedAt := none } ]
        { id := 1, email := some "", phoneNumber := some "1", linkedId := none,
          linkPrecedence := "primary", createdAt := 0, updatedAt := 0, deletedAt := none }
      ≠ ["x"] := by
  refine ⟨by decide, by decide, by decide⟩

/-- **C8.** No transactional guarantee: with one primary `(a,1)` stored, a
`Resolve(a,2)` whose final chain re-read fails aborts with
`storageUnavailable`, but the secondary insert committed beforehand stays
visible — the store after the failed call has two rows, not one. -/
theorem c8_partial_write_visible_on_failure :
    ((identify_contact_faulty oneContactStore [false, false, false, true]
        (some "a") (some "2")).1.isOk = false) ∧
    ((match (identify_contact_faulty oneContactStore [false, false, false, true]
        (some "a") (some "2")).1 with
      | .error .storageUnavailable => true
      | _ => false) = true) ∧
    (identify_contact_faulty oneContactStore [false, false, false, true]
        (some "a") (some "2")).2.contacts.length = 2 ∧
    oneContactStore.contacts.length = 1 := by
  refine ⟨by decide, by decide, by decide, by decide⟩

/-! ### Sorting lemmas -/

theorem mem_insertByCreated {a c : Contact} {l : List Contact} :
    a ∈ insertByCreated c l ↔ a = c ∨ a ∈ l := by
  induction l with
  | nil => simp [insertByCreated]
  | cons d ds ih =>
    simp only [insertByCreated]
    split
    · simp [or_comm, or_assoc, or_left_comm]
    · simp only [List.mem_cons, ih]
      tauto

theorem mem_sortByCreated {a : Contact} {l : List Contact} :
    a ∈ sortByCreated l ↔ a ∈ l := by
  induction l with
  | nil => simp [sortByCreated]
  | cons c cs ih => simp [sortByCreated, mem_insertByCreated, ih]

theorem insertByCreated_eq_cons {c : Contact} {l : List Contact}
    (h : ∀ d ∈ l, c.createdAt < d.createdAt) : insertByCreated c l = c :: l := by
  cases l with
  | nil => rfl
  | cons d ds => simp [insertByCreated, h d (by simp)]

theorem sortByCreated_eq_self {l : List Contact}
    (h : l.Pairwise (fun a b => a.createdAt < b.createdAt)) : sortByCreated l = l := by
  induction l with
  | nil => rfl
  | cons c cs ih =>
    rw [List.pairwise_cons] at h
    rw [sortByCreated, ih h.2, insertByCreated_eq_cons h.1]

theorem length_insertByCreated (c : Contact) (l : List Contact) :
    (insertByCreated c l).length = l.length + 1 := by
  induction l with
  | nil => rfl
  | cons d ds ih =>
    simp only [insertByCreated]
    split <;> simp [ih]

theorem length_sortByCreated (l : List Contact) :
    (sortByCreated l).length = l.length := by
  induction l with
  | nil => rfl
  | cons c cs ih => simp [sortByCreated, length_insertByCreated, ih]

theorem eq_nil_of_sortByCreated_eq_nil {l : List Contact}
    (h : sortByCreated l = []) : l = [] := by
  have hl := length_sortByCreated l
  rw [h] at hl
  exact List.length_eq_zero.mp hl.symm

/-! ### Lemmas about the first-minimum selection -/

theorem foldl_minStep_keep {m : Contact} {cs : List Contact}
    (h : ∀ d ∈ cs, ¬ d.createdAt < m.createdAt) :
    cs.foldl minStep (some m) = some m := by
  induction cs with
  | nil => rfl
  | cons d ds ih =>
    rw [List.foldl_cons]
    have hstep : minStep (some m) d = some m := by
      simp [minStep, h d (by simp)]
    rw [hstep]
    exact ih (fun x hx => h x (by simp [hx]))

theorem minByCreated_cons_of_min {c : Contact} {cs : List Contact}
    (h : ∀ d ∈ cs, ¬ d.createdAt < c.createdAt) :
    minByCreated (c :: cs) = some c := by
  rw [minByCreated, List.foldl_cons]
  exact foldl_minStep_keep h

theorem minByCreated_sorted {c : Contact} {cs : List Contact}
    (h : (c :: cs).Pairwise (fun a b => a.createdAt < b.createdAt)) :
    minByCreated (c :: cs) = some c := by
  rw [List.pairwise_cons] at h
  exact minByCreated_cons_of_min (fun d hd => Nat.lt_asymm (h.1 d hd))

theorem eq_of_createdAt_eq_of_sorted {l : List Contact}
    (h : l.Pairwise (fun a b => a.createdAt < b.createdAt)) {a b : Contact}
    (ha : a ∈ l) (hb : b ∈ l) (hab : a.createdAt = b.createdAt) : a = b := by
  induction l with
  | nil => cases ha
  | cons c cs ih =>
    rw [List.pairwise_cons] at h
    rcases List.mem_cons.mp ha with rfl | ha' <;>
      rcases List.mem_cons.mp hb with rfl | hb'
    · rfl
    · exact absurd hab (Nat.ne_of_lt (h.1 b hb'))
    · exact absurd hab.symm (Nat.ne_of_lt (h.1 a ha'))
    · exact ih h.2 ha' hb'

/-! ### Lemmas about the root-id set -/

theorem rootList_cons (c : Contact) (cs : List Contact) :
    rootList (c :: cs) =
      if c.linkPrecedence == "primary" then c.id :: rootList cs
      else
        match c.linkedId with
        | some j => if j ≠ 0 then j :: rootList cs else rootList cs
        | none => rootList cs := rfl

theorem mem_rootList {m : List Contact} {j : Nat} :
    j ∈ rootList m ↔
      ∃ c ∈ m, (c.linkPrecedence = "primary" ∧ j = c.id) ∨
        (¬ c.linkPrecedence = "primary" ∧ c.linkedId = some j ∧ j ≠ 0) := by
  induction m with
  | nil => simp [rootList]
  | cons c cs ih =>
    rw [rootList_cons]
    by_cases hc : c.linkPrecedence = "primary"
    · rw [if_pos (by simp [hc])]
      simp only [List.mem_cons, ih]
      constructor
      · rintro (rfl | ⟨d, hd, hcase⟩)
        · exact ⟨c, Or.inl rfl, Or.inl ⟨hc, rfl⟩⟩
        · exact ⟨d, Or.inr hd, hcase⟩
      · rintro ⟨d, (rfl | hd), hcase⟩
        · rcases hcase with ⟨_, rfl⟩ | ⟨hnp, _, _⟩
          · exact Or.inl rfl
          · exact absurd hc hnp
        · exact Or.inr ⟨d, hd, hcase⟩
    · rw [if_neg (by simp [hc])]
      have hsplit :
          (match c.linkedId with
            | some j0 => if j0 ≠ 0 then j0 :: rootList cs else rootList cs
            | none => rootList cs) = rootList cs ∨
          (∃ j0, c.linkedId = some j0 ∧ j0 ≠ 0 ∧
            (match c.linkedId with
              | some j1 => if j1 ≠ 0 then j1 :: rootList cs else rootList cs
              | none => rootList cs) = j0 :: rootList cs) := by
        cases hlink : c.linkedId with
        | none => exact Or.inl rfl
        | some j0 =>
          by_cases hj0 : j0 ≠ 0
          · exact Or.inr ⟨j0, rfl, hj0, by simp [hj0]⟩
          · push_neg at hj0
            exact Or.inl (by simp [hj0])
      rcases hsplit with heq | ⟨j0, hlink, hj0, heq⟩
      · rw [heq]
        simp only [ih, List.mem_cons]
        constructor
        · rintro ⟨d, hd, hcase⟩
          exact ⟨d, Or.inr hd, hcase⟩
        · rintro ⟨d, (rfl | hd), hcase⟩
          · rcases hcase with ⟨hp, _⟩ | ⟨_, hl, hjne⟩
            · exact absurd hp hc
            · exfalso
              rcases hlk : d.linkedId with _ | j1
              · rw [hlk] at hl; cases hl
              · rw [hlk] at hl
                cases hl
                rw [hlk] at heq
                have heq' : (if j ≠ 0 then j :: rootList cs else rootList cs) = rootList cs := heq
                rw [if_pos hjne] at heq'
                exact List.cons_ne_self _ _ heq'
          · exact ⟨d, hd, hcase⟩
      · rw [heq]
        simp only [List.mem_cons, ih]
        constructor
        · rintro (rfl | ⟨d, hd, hcase⟩)
          · exact ⟨c, Or.inl rfl, Or.inr ⟨hc, hlink, hj0⟩⟩
          · exact ⟨d, Or.inr hd, hcase⟩
        · rintro ⟨d, (rfl | hd), hcase⟩
          · rcases hcase with ⟨hp, _⟩ | ⟨_, hl, _⟩
            · exact absurd hp hc
            · rw [hlink] at hl
              cases hl
              exact Or.inl rfl
          · exact Or.inr ⟨d, hd, hcase⟩

theorem rootList_ne_nil {m : List Contact}
    (hdich : ∀ x ∈ m, x.linkPrecedence = "primary" ∨ ∃ j, x.linkedId = some j ∧ j ≠ 0)
    (hne : m ≠ []) : rootList m ≠ [] := by
  cases m with
  | nil => exact absurd rfl hne
  | cons c cs =>
    rw [rootList_cons]
    by_cases hc : c.linkPrecedence = "primary"
    · rw [if_pos (by simp [hc])]
      exact List.cons_ne_nil _ _
    · rcases hdich c (by simp) with hp | ⟨j, hj, hj0⟩
      · exact absurd hp hc
      · rw [if_neg (by simp [hc]), hj]
        simp only [if_pos hj0]
        exact List.cons_ne_nil _ _

/-! ### Consolidation characterization -/

theorem dedupSeen_congr {s1 s2 : List String} (h : ∀ a, a ∈ s1 ↔ a ∈ s2) :
    ∀ xs, dedupSeen s1 xs = dedupSeen s2 xs
  | [] => rfl
  | x :: xs => by
    by_cases hx : x ∈ s1
    · rw [dedupSeen, dedupSeen, if_pos (by simpa using hx),
        if_pos (by simpa using (h x).mp hx)]
      exact dedupSeen_congr h xs
    · rw [dedupSeen, dedupSeen, if_neg (by simpa using hx),
        if_neg (by simpa using fun hx2 => hx ((h x).mpr hx2))]
      exact congrArg (fun t => x :: t)
        (@dedupSeen_congr (x :: s1) (x :: s2) (fun a => by simp [h a]) xs)

theorem pushStream_char (v : Option String) (es rest : List String) :
    (if truthy v then pushIfNew es (v.getD "") else es) ++
      dedupSeen (if truthy v then pushIfNew es (v.getD "") else es) rest =
    es ++ dedupSeen es ((presentVal v).toList ++ rest) := by
  cases v with
  | none => simp [truthy, presentVal]
  | some e =>
    by_cases he : e = ""
    · subst he
      simp [truthy, presentVal]
    · by_cases hc : e ∈ es
      · simp [truthy, he, presentVal, pushIfNew, dedupSeen, hc]
      · have hbe : truthy (some e) = true := by simp [truthy, he]
        have h1 : es.contains e = false := by simpa using hc
        have hpv : presentVal (some e) = some e := by simp [presentVal, he]
        simp only [hbe, eq_self_iff_true, if_true, hpv, Option.getD_some,
          Option.toList_some, List.singleton_append, pushIfNew, h1,
          Bool.false_eq_true, if_false, dedupSeen]
        rw [dedupSeen_congr
          (fun a => by simp [or_comm] : ∀ a, a ∈ es ++ [e] ↔ a ∈ e :: es) rest]
        simp

theorem foldl_consStep_char (root : Contact) :
    ∀ (cs : List Contact) (es ps : List String) (ss : List Nat),
      cs.foldl (consStep root) (es, ps, ss) =
        (es ++ dedupSeen es ((cs.filter (fun c => c.id ≠ root.id)).filterMap
            (fun c => presentVal c.email)),
         ps ++ dedupSeen ps ((cs.filter (fun c => c.id ≠ root.id)).filterMap
            (fun c => presentVal c.phoneNumber)),
         ss ++ (cs.filter (fun c => c.id ≠ root.id)).map (fun c => c.id))
  | [], es, ps, ss => by simp [dedupSeen]
  | c :: cs, es, ps, ss => by
    by_cases hid : c.id = root.id
    · have hstep : consStep root (es, ps, ss) c = (es, ps, ss) := by
        simp [consStep, hid]
      have hfil : (c :: cs).filter (fun c => c.id ≠ root.id) =
          cs.filter (fun c => c.id ≠ root.id) := by
        simp [List.filter_cons, hid]
      rw [List.foldl_cons, hstep, hfil]
      exact foldl_consStep_char root cs es ps ss
    · have hstep : consStep root (es, ps, ss) c =
          (if truthy c.email then pushIfNew es (c.email.getD "") else es,
           if truthy c.phoneNumber then pushIfNew ps (c.phoneNumber.getD "") else ps,
           ss ++ [c.id]) := by
        simp [consStep, hid]
      have hfil : (c :: cs).filter (fun c => c.id ≠ root.id) =
          c :: cs.filter (fun c => c.id ≠ root.id) := by
        simp [List.filter_cons, hid]
      rw [List.foldl_cons, hstep, foldl_consStep_char root cs _ _ _, hfil]
      simp only [Prod.mk.injEq]
      refine ⟨?_, ?_, ?_⟩
      · rw [List.filterMap_cons]
        cases hpv : presentVal c.email with
        | none =>
          have := pushStream_char c.email
            es (((cs.filter (fun c => c.id ≠ root.id)).filterMap (fun c => presentVal c.email)))
          rw [hpv] at this
          simpa using this
        | some e =>
          have := pushStream_char c.email
            es (((cs.filter (fun c => c.id ≠ root.id)).filterMap (fun c => presentVal c.email)))
          rw [hpv] at this
          simpa using this
      · rw [List.filterMap_cons]
        cases hpv : presentVal c.phoneNumber with
        | none =>
          have := pushStream_char c.phoneNumber
            ps (((cs.filter (fun c => c.id ≠ root.id)).filterMap (fun c => presentVal c.phoneNumber)))
          rw [hpv] at this
          simpa using this
        | some e =>
          have := pushStream_char c.phoneNumber
            ps (((cs.filter (fun c => c.id ≠ root.id)).filterMap (fun c => presentVal c.phoneNumber)))
          rw [hpv] at this
          simpa using this
      · simp

theorem first_of_truthy (v : Option String) :
    (if truthy v then [v.getD ""] else []) =
      (match presentVal v with | some e => [e] | none => []) := by
  cases v with
  | none => simp [truthy, presentVal]
  | some e =>
    by_cases he : e = ""
    · subst he
      simp [truthy, presentVal]
    · simp [truthy, presentVal, he]

/-- **C7 (amended).** The consolidated view built by the code: with the
consolidation root taken as the member of minimal `createdAt` (the reported
primary), `emails` is the root's own email first (when present, i.e. non-null
and non-empty) followed by the other members' present emails in ascending
`createdAt` order with duplicates skipped; `phoneNumbers` likewise; and
`secondaryContactIds` lists every non-root member's id in ascending
`createdAt` order.  (Amendment: "non-null" becomes "present" — the empty
string is dropped like a null — and "non-primary member" means member other
than the consolidation root.) -/
theorem c7_consolidated_view_matches_spec (l : List Contact) (root : Contact)
    (hsort : l.Pairwise (fun a b => a.createdAt < b.createdAt))
    (hroot : minByCreated l = some root) :
    consolidate_contacts l = some
      { primaryContatctId := root.id, emails := specEmails l root,
        phoneNumbers := specPhones l root,
        secondaryContactIds := specSecondaryIds l root } := by
  simp only [consolidate_contacts, hroot]
  rw [foldl_consStep_char]
  simp only [specEmails, specPhones, specSecondaryIds, sortByCreated_eq_self hsort]
  rw [← first_of_truthy root.email, ← first_of_truthy root.phoneNumber]
  simp

/-- Witness for the amended C7 theorem at a concrete two-member chain. -/
theorem c7_consolidated_view_matches_spec_witness :
    (viewPair.Pairwise (fun a b => a.createdAt < b.createdAt) ∧
      minByCreated viewPair = some viewRoot) ∧
    consolidate_contacts viewPair = some
      { primaryContatctId := viewRoot.id, emails := specEmails viewPair viewRoot,
        phoneNumbers := specPhones viewPair viewRoot,
        secondaryContactIds := specSecondaryIds viewPair viewRoot } :=
  ⟨⟨by decide, by decide⟩,
    c7_consolidated_view_matches_spec viewPair viewRoot (by decide) (by decide)⟩

/-! ### The demotion pass as a pointwise map -/

theorem update_contact_to_secondary_contacts (s : Store) (cid oid : Nat) :
    (update_contact_to_secondary s cid oid).contacts =
      s.contacts.map (fun c =>
        if c.id == cid then
          { c with linkedId := some oid, linkPrecedence := "secondary",
                   updatedAt := s.now }
        else c) := rfl

theorem update_contact_to_secondary_now (s : Store) (cid oid : Nat) :
    (update_contact_to_secondary s cid oid).now = s.now := rfl

theorem update_contact_to_secondary_nextId (s : Store) (cid oid : Nat) :
    (update_contact_to_secondary s cid oid).nextId = s.nextId := rfl

theorem foldl_demote_char (oid : Nat) :
    ∀ (ps : List Contact) (st : Store),
      ((ps.foldl (fun st c =>
          if c.id ≠ oid then update_contact_to_secondary st c.id oid else st) st).contacts =
        st.contacts.map (fun c =>
          if ps.any (fun p2 => decide (p2.id ≠ oid) && (c.id == p2.id)) then
            { c with linkedId := some oid, linkPrecedence := "secondary",
                     updatedAt := st.now }
          else c)) ∧
      ((ps.foldl (fun st c =>
          if c.id ≠ oid then update_contact_to_secondary st c.id oid else st) st).now
        = st.now) ∧
      ((ps.foldl (fun st c =>
          if c.id ≠ oid then update_contact_to_secondary st c.id oid else st) st).nextId
        = st.nextId)
  | [], st => by simp
  | p :: ps, st => by
    by_cases hp : p.id = oid
    · rw [List.foldl_cons, if_neg (by simp [hp])]
      obtain ⟨h1, h2, h3⟩ := foldl_demote_char oid ps st
      refine ⟨?_, h2, h3⟩
      rw [h1]
      apply List.map_congr_left
      intro c _
      have hany : ((p :: ps).any (fun p2 => decide (p2.id ≠ oid) && (c.id == p2.id)))
          = (ps.any (fun p2 => decide (p2.id ≠ oid) && (c.id == p2.id))) := by
        simp [List.any_cons, hp]
      rw [hany]
    · rw [List.foldl_cons, if_pos hp]
      obtain ⟨h1, h2, h3⟩ :=
        foldl_demote_char oid ps (update_contact_to_secondary st p.id oid)
      refine ⟨?_, by rw [h2]; rfl, by rw [h3]; rfl⟩
      rw [h1, update_contact_to_secondary_now, update_contact_to_secondary_contacts,
        List.map_map]
      apply List.map_congr_left
      intro c _
      simp only [Function.comp_apply]
      by_cases hc : c.id = p.id
      · rw [if_pos (by simp [hc] : (c.id == p.id) = true)]
        have hall : ((p :: ps).any (fun p2 => decide (p2.id ≠ oid) && (c.id == p2.id)))
            = true := by
          simp only [List.any_cons, Bool.or_eq_true, Bool.and_eq_true]
          exact Or.inl ⟨by simpa using hp, by simpa using hc⟩
        rw [hall, if_pos rfl]
        dsimp only
        split <;> rfl
      · rw [if_neg (by simp [hc] : ¬ (c.id == p.id) = true)]
        have hany : ((p :: ps).any (fun p2 => decide (p2.id ≠ oid) && (c.id == p2.id)))
            = (ps.any (fun p2 => decide (p2.id ≠ oid) && (c.id == p2.id))) := by
          simp [List.any_cons, hc]
        rw [hany]

theorem demotePass_char (s : Store) (all0 : List Contact) :
    (demotePass s all0).contacts = s.contacts.map (demApply s all0) ∧
    (demotePass s all0).now = s.now ∧ (demotePass s all0).nextId = s.nextId := by
  unfold demotePass demApply
  by_cases hlen : (all0.filter (fun c => c.linkPrecedence == "primary")).length > 1
  · rw [if_pos hlen]
    simp only [if_pos hlen]
    cases hmin : minByCreated (all0.filter (fun c => c.linkPrecedence == "primary")) with
    | none => simp
    | some o => exact foldl_demote_char o.id _ s
  · rw [if_neg hlen]
    simp only [if_neg hlen]
    simp

/-! ### Branch analysis of the endpoint -/

theorem identify_cases {s : Store} {e p : Option String} {r : ContactResponse}
    {s' : Store} (h : identify_contact s e p = .ok (r, s')) :
    (truthy e = true ∨ truthy p = true) ∧
    ((find_contacts_by_email_or_phone s e p = [] ∧
        r = newContactView e p s.nextId ∧
        s' = (create_contact s e p none "primary").2) ∨
      (find_contacts_by_email_or_phone s e p ≠ [] ∧
        ((get_all_linked_contacts s (find_contacts_by_email_or_phone s e p)).map
            (fun c => (c.email, c.phoneNumber))).contains (e, p) = true ∧
        consolidate_contacts
          (get_all_linked_contacts s (find_contacts_by_email_or_phone s e p)) = some r ∧
        s' = s) ∨
      (find_contacts_by_email_or_phone s e p ≠ [] ∧
        ((get_all_linked_contacts s (find_contacts_by_email_or_phone s e p)).map
            (fun c => (c.email, c.phoneNumber))).contains (e, p) = false ∧
        ∃ m, minByCreated
            (get_all_linked_contacts s (find_contacts_by_email_or_phone s e p)) = some m ∧
          s' = (create_contact
              (demotePass s (get_all_linked_contacts s (find_contacts_by_email_or_phone s e p)))
              e p (some m.id) "secondary").2 ∧
          consolidate_contacts
            (get_all_linked_contacts s' (find_contacts_by_email_or_phone s e p)) = some r)) := by
  simp only [identify_contact] at h
  split at h
  next hv => cases h
  next hv =>
    have hv' : truthy e = true ∨ truthy p = true := by
      cases hbe : truthy e <;> cases hbp : truthy p <;> simp [hbe, hbp] at hv ⊢
    refine ⟨hv', ?_⟩
    split at h
    next hemp =>
      simp only [Except.ok.injEq, Prod.mk.injEq] at h
      exact Or.inl ⟨by simpa using hemp, h.1.symm, h.2.symm⟩
    next hemp =>
      split at h
      next hknown =>
        split at h
        next resp hcons =>
          simp only [Except.ok.injEq, Prod.mk.injEq] at h
          exact Or.inr (Or.inl ⟨by simpa using hemp, hknown,
            hcons.trans (congrArg some h.1), h.2.symm⟩)
        next hcons => cases h
      next hknown =>
        split at h
        next hmin => cases h
        next m hmin =>
          split at h
          next resp hcons =>
            simp only [Except.ok.injEq, Prod.mk.injEq] at h
            refine Or.inr (Or.inr ⟨by simpa using hemp, by simpa using hknown,
              m, hmin, h.2.symm, ?_⟩)
            rw [← h.2]
            exact hcons.trans (congrArg some h.1)
          next hcons => cases h

/-! ### Frame lemmas -/

theorem create_contact_store (s : Store) (e p : Option String) (li : Option Nat)
    (prec : String) :
    (create_contact s e p li prec).2.contacts = s.contacts ++ [newRow s e p li prec] ∧
    (create_contact s e p li prec).2.nextId = s.nextId + 1 ∧
    (create_contact s e p li prec).2.now = s.now + 1 ∧
    (create_contact s e p li prec).1 = newRow s e p li prec :=
  ⟨rfl, rfl, rfl, rfl⟩

theorem mem_find_subset {s : Store} {e p : Option String} :
    ∀ x ∈ find_contacts_by_email_or_phone s e p, x ∈ s.contacts := by
  intro x hx
  simp only [find_contacts_by_email_or_phone] at hx
  split at hx
  · cases hx
  · exact List.mem_of_mem_filter (mem_sortByCreated.mp hx)

theorem mem_get_all_subset {s : Store} {m : List Contact}
    (hm : ∀ x ∈ m, x ∈ s.contacts) :
    ∀ x ∈ get_all_linked_contacts s m, x ∈ s.contacts := by
  intro x hx
  simp only [get_all_linked_contacts] at hx
  split at hx
  · cases hx
  · split at hx
    · exact hm x hx
    · exact List.mem_of_mem_filter (mem_sortByCreated.mp hx)

theorem demApply_fields (s : Store) (all0 : List Contact) (c : Contact) :
    (demApply s all0 c).id = c.id ∧ (demApply s all0 c).email = c.email ∧
    (demApply s all0 c).phoneNumber = c.phoneNumber ∧
    (demApply s all0 c).createdAt = c.createdAt ∧
    (demApply s all0 c).deletedAt = c.deletedAt := by
  simp only [demApply]
  split
  · split
    · split
      · exact ⟨rfl, rfl, rfl, rfl, rfl⟩
      · exact ⟨rfl, rfl, rfl, rfl, rfl⟩
    · exact ⟨rfl, rfl, rfl, rfl, rfl⟩
  · exact ⟨rfl, rfl, rfl, rfl, rfl⟩

theorem demApply_cases (s : Store) (all0 : List Contact) (c : Contact) :
    demApply s all0 c = c ∨
    (∃ o, minByCreated (all0.filter (fun x => x.linkPrecedence == "primary")) = some o ∧
      (all0.filter (fun x => x.linkPrecedence == "primary")).any
        (fun p2 => decide (p2.id ≠ o.id) && (c.id == p2.id)) = true ∧
      demApply s all0 c =
        { c with linkedId := some o.id, linkPrecedence := "secondary",
                 updatedAt := s.now }) := by
  simp only [demApply]
  split
  · split
    next o hmin =>
      split
      next hany => exact Or.inr ⟨o, hmin, hany, rfl⟩
      next hany => exact Or.inl rfl
    next => exact Or.inl rfl
  · exact Or.inl rfl

theorem trigger_primary {s : Store} {all0 : List Contact} {c o : Contact}
    (hids : (s.contacts.map (fun c => c.id)).Nodup)
    (hsub : ∀ x ∈ all0, x ∈ s.contacts) (hc : c ∈ s.contacts)
    (hany : (all0.filter (fun x => x.linkPrecedence == "primary")).any
      (fun p2 => decide (p2.id ≠ o.id) && (c.id == p2.id)) = true) :
    c.linkPrecedence = "primary" ∧ c.id ≠ o.id := by
  rw [List.any_eq_true] at hany
  obtain ⟨p2, hp2mem, hcond⟩ := hany
  rw [Bool.and_eq_true] at hcond
  have hne : p2.id ≠ o.id := by simpa using hcond.1
  have hid : c.id = p2.id := by simpa using hcond.2
  have hp2 := List.mem_filter.mp hp2mem
  have hp2s : p2 ∈ s.contacts := hsub _ hp2.1
  have hcp : c = p2 := List.inj_on_of_nodup_map hids hc hp2s hid
  refine ⟨?_, ?_⟩
  · rw [hcp]
    simpa using hp2.2
  · rw [hid]
    exact hne

/-- **C9.** Every successful `Resolve` call inserts at most one row — exactly
one when the lookup was empty or the exact pair is novel, none otherwise —
deletes nothing, and leaves every pre-existing row in place with its `id`,
`email`, `phoneNumber`, `createdAt` and `deletedAt` unchanged: a row is
either untouched or (being a demoted primary) has only `linkedId`,
`linkPrecedence` and `updatedAt` rewritten. -/
theorem c9_frame_conditions (s : Store) (e p : Option String) (r : ContactResponse)
    (s' : Store) (hids : (s.contacts.map (fun c => c.id)).Nodup)
    (h : identify_contact s e p = .ok (r, s')) :
    (s'.contacts.length = s.contacts.length ∨
      s'.contacts.length = s.contacts.length + 1) ∧
    (s'.contacts.length = s.contacts.length + 1 ↔
      (find_contacts_by_email_or_phone s e p = [] ∨
        ((get_all_linked_contacts s (find_contacts_by_email_or_phone s e p)).map
          (fun c => (c.email, c.phoneNumber))).contains (e, p) = false)) ∧
    (∀ (i : Nat) (c : Contact), s.contacts[i]? = some c →
      ∃ c', s'.contacts[i]? = some c' ∧
      c'.id = c.id ∧ c'.email = c.email ∧ c'.phoneNumber = c.phoneNumber ∧
      c'.createdAt = c.createdAt ∧ c'.deletedAt = c.deletedAt ∧
      (c' = c ∨ (c.linkPrecedence = "primary" ∧ c'.linkPrecedence = "secondary" ∧
        c'.linkedId.isSome = true))) := by
  obtain ⟨hv, hcase⟩ := identify_cases h
  rcases hcase with ⟨hemp, hr, hs'⟩ | ⟨hne, hknown, hcons, hs'⟩ |
    ⟨hne, hknown, m, hmin, hs', hcons⟩
  · subst hs'
    obtain ⟨hcc, _, _, _⟩ := create_contact_store s e p none "primary"
    refine ⟨Or.inr (by rw [hcc]; simp),
      iff_of_true (by rw [hcc]; simp) (Or.inl hemp), ?_⟩
    intro i c hic
    obtain ⟨hlt, _⟩ := List.getElem?_eq_some.mp hic
    refine ⟨c, ?_, rfl, rfl, rfl, rfl, rfl, Or.inl rfl⟩
    rw [hcc, List.getElem?_append_left hlt, hic]
  · subst hs'
    refine ⟨Or.inl rfl, iff_of_false (by omega) ?_, ?_⟩
    · rintro (hf | hf)
      · exact hne hf
      · rw [hknown] at hf
        cases hf
    · intro i c hic
      exact ⟨c, hic, rfl, rfl, rfl, rfl, rfl, Or.inl rfl⟩
  · subst hs'
    obtain ⟨hdc, hdnow, hdnext⟩ := demotePass_char s
      (get_all_linked_contacts s (find_contacts_by_email_or_phone s e p))
    obtain ⟨hcc, _, _, _⟩ := create_contact_store
      (demotePass s (get_all_linked_contacts s (find_contacts_by_email_or_phone s e p)))
      e p (some m.id) "secondary"
    have hlen : ((create_contact
        (demotePass s (get_all_linked_contacts s (find_contacts_by_email_or_phone s e p)))
        e p (some m.id) "secondary").2.contacts).length = s.contacts.length + 1 := by
      rw [hcc, hdc]
      simp
    refine ⟨Or.inr hlen, iff_of_true hlen (Or.inr hknown), ?_⟩
    intro i c hic
    obtain ⟨hlt, _⟩ := List.getElem?_eq_some.mp hic
    have hmap : ((create_contact
        (demotePass s (get_all_linked_contacts s (find_contacts_by_email_or_phone s e p)))
        e p (some m.id) "secondary").2.contacts)[i]? =
        some (demApply s
          (get_all_linked_contacts s (find_contacts_by_email_or_phone s e p)) c) := by
      rw [hcc, hdc, List.getElem?_append_left (by simpa using hlt),
        List.getElem?_map, hic]
      rfl
    obtain ⟨f1, f2, f3, f4, f5⟩ := demApply_fields s
      (get_all_linked_contacts s (find_contacts_by_email_or_phone s e p)) c
    refine ⟨demApply s
        (get_all_linked_contacts s (find_contacts_by_email_or_phone s e p)) c,
      hmap, f1, f2, f3, f4, f5, ?_⟩
    rcases demApply_cases s
        (get_all_linked_contacts s (find_contacts_by_email_or_phone s e p)) c with
      heq | ⟨o, hmin2, hany, heq⟩
    · exact Or.inl heq
    · have hc : c ∈ s.contacts := List.getElem?_mem hic
      have hprim := trigger_primary hids
        (mem_get_all_subset (mem_find_subset)) hc hany
      refine Or.inr ⟨hprim.1, ?_, ?_⟩
      · rw [heq]
      · rw [heq]
        rfl

/-- Witness for the frame theorem: `Resolve(a, 2)` against the one-contact
store. -/
theorem c9_frame_conditions_witness :
    ((oneContactStore.contacts.map (fun c => c.id)).Nodup ∧
      identify_contact oneContactStore (some "a") (some "2") = .ok (c9Resp, c9Store)) ∧
    ((c9Store.contacts.length = oneContactStore.contacts.length ∨
        c9Store.contacts.length = oneContactStore.contacts.length + 1) ∧
      (c9Store.contacts.length = oneContactStore.contacts.length + 1 ↔
        (find_contacts_by_email_or_phone oneContactStore (some "a") (some "2") = [] ∨
          ((get_all_linked_contacts oneContactStore
              (find_contacts_by_email_or_phone oneContactStore (some "a") (some "2"))).map
            (fun c => (c.email, c.phoneNumber))).contains (some "a", some "2") = false)) ∧
      (∀ (i : Nat) (c : Contact), oneContactStore.contacts[i]? = some c →
        ∃ c', c9Store.contacts[i]? = some c' ∧
        c'.id = c.id ∧ c'.email = c.email ∧ c'.phoneNumber = c.phoneNumber ∧
        c'.createdAt = c.createdAt ∧ c'.deletedAt = c.deletedAt ∧
        (c' = c ∨ (c.linkPrecedence = "primary" ∧ c'.linkPrecedence = "secondary" ∧
          c'.linkedId.isSome = true)))) :=
  ⟨⟨by decide, by rfl⟩,
    c9_frame_conditions oneContactStore (some "a") (some "2") c9Resp c9Store
      (by decide) (by rfl)⟩

/-! ### Input validation -/

theorem identify_error_classify (s : Store) (e p : Option String) :
    identify_contact s e p = .error .invalidInput ↔ (!truthy e && !truthy p) = true := by
  simp only [identify_contact]
  by_cases hv : (!truthy e && !truthy p) = true
  · simp [hv]
  · rw [if_neg hv]
    constructor
    · intro h
      exfalso
      split at h
      · cases h
      · split at h
        · split at h
          · cases h
          · simp at h
        · split at h
          · simp at h
          · split at h
            · cases h
            · simp at h
    · intro hcon
      exact absurd hcon hv

/-- **C5 (amended).** `Resolve` fails with `InvalidInput` exactly when both
the email and the phone are Python-falsy — `None` or the empty string.  No
trimming is applied anywhere: a whitespace-only field counts as present and
the call proceeds.  (On failure nothing is written: validation precedes
every store operation, and the error result carries no store.) -/
theorem c5_invalid_iff_both_empty (s : Store) (e p : Option String) :
    identify_contact s e p = .error .invalidInput ↔
      (truthy e = false ∧ truthy p = false) := by
  rw [identify_error_classify]
  cases hbe : truthy e <;> cases hbp : truthy p <;> simp

/-- **C6.** When the lookup over non-deleted contacts matches nothing,
`Resolve` inserts exactly one new contact — primary, no `linkedId`, carrying
the observation's email and phone verbatim — and returns a view holding only
it: the new id, `[email]`/`[phone]` when present else `[]`, and no
secondaries. -/
theorem c6_no_match_creates_primary (s : Store) (e p : Option String)
    (hv : truthy e = true ∨ truthy p = true)
    (hempty : find_contacts_by_email_or_phone s e p = []) :
    identify_contact s e p = .ok
      ({ primaryContatctId := s.nextId,
         emails := if truthy e then [e.getD ""] else [],
         phoneNumbers := if truthy p then [p.getD ""] else [],
         secondaryContactIds := [] },
       { contacts := s.contacts ++
           [{ id := s.nextId, email := e, phoneNumber := p, linkedId := none,
              linkPrecedence := "primary", createdAt := s.now, updatedAt := s.now,
              deletedAt := none }],
         nextId := s.nextId + 1, now := s.now + 1 }) := by
  have hg : ¬ (!truthy e && !truthy p) = true := by
    rcases hv with h | h <;> simp [h]
  have hie : (find_contacts_by_email_or_phone s e p).isEmpty = true := by
    simp [hempty]
  simp only [identify_contact, if_neg hg, if_pos hie]
  rfl

/-- Witness for C6: the single-field creation of the spec, on the empty
store. -/
theorem c6_no_match_creates_primary_witness :
    ((truthy (some "a@x.com") = true ∨ truthy (none : Option String) = true) ∧
      find_contacts_by_email_or_phone emptyStore (some "a@x.com") none = []) ∧
    identify_contact emptyStore (some "a@x.com") none = .ok
      ({ primaryContatctId := emptyStore.nextId,
         emails := if truthy (some "a@x.com") then [(some "a@x.com").getD ""] else [],
         phoneNumbers := if truthy (none : Option String) then [(none : Option String).getD ""] else [],
         secondaryContactIds := [] },
       { contacts := emptyStore.contacts ++
           [{ id := emptyStore.nextId, email := some "a@x.com", phoneNumber := none,
              linkedId := none, linkPrecedence := "primary", createdAt := emptyStore.now,
              updatedAt := emptyStore.now, deletedAt := none }],
         nextId := emptyStore.nextId + 1, now := emptyStore.now + 1 }) :=
  ⟨⟨Or.inl (by decide), by decide⟩,
    c6_no_match_creates_primary emptyStore (some "a@x.com") none
      (Or.inl (by decide)) (by decide)⟩

/-- **C3 counterexample.** On a store violating the resolver's own
well-formedness (a row whose `linkedId` points at a younger row), two
successive `Resolve` calls with the identical pair report different
`primaryContactId`s: 5 then 4. -/
theorem c3_counterexample_different_primary_ids :
    ((identify_contact cexStore (some "a") (some "2")).toOption.map
        (fun r => r.1.primaryContatctId) = some 5) ∧
    ((identify_contact (runIdentify cexStore (some "a") (some "2"))
        (some "a") (some "2")).toOption.map
        (fun r => r.1.primaryContatctId) = some 4) :=
  ⟨by decide, by decide⟩

/-! ### Support lemmas for the idempotence theorem -/

theorem truthy_isSome {v : Option String} (h : truthy v = true) : v.isSome = true := by
  cases v with
  | none => cases h
  | some x => rfl

theorem matchesObs_iff {e p : Option String} {c : Contact} :
    matchesObs e p c = true ↔
      (c.deletedAt = none ∧ ((e.isSome = true ∧ c.email = e) ∨
        (p.isSome = true ∧ c.phoneNumber = p))) := by
  unfold matchesObs
  simp [and_assoc]

theorem inChains_iff {roots : List Nat} {c : Contact} :
    inChains roots c = true ↔
      (c.deletedAt = none ∧ (c.id ∈ roots ∨ ∃ j, c.linkedId = some j ∧ j ∈ roots)) := by
  unfold inChains
  cases hl : c.linkedId <;> simp [hl]

theorem matchesObs_demApply (s : Store) (all0 : List Contact) (e p : Option String)
    (c : Contact) : matchesObs e p (demApply s all0 c) = matchesObs e p c := by
  obtain ⟨_, f2, f3, _, f5⟩ := demApply_fields s all0 c
  unfold matchesObs
  rw [f2, f3, f5]

theorem find_eq_filter {s : Store} {e p : Option String}
    (hv : truthy e = true ∨ truthy p = true)
    (hsort : s.contacts.Pairwise (fun a b => a.createdAt < b.createdAt)) :
    find_contacts_by_email_or_phone s e p = s.contacts.filter (matchesObs e p) := by
  unfold find_contacts_by_email_or_phone
  rw [if_neg (by rcases hv with h | h <;> simp [h])]
  exact sortByCreated_eq_self (hsort.filter _)

theorem get_all_eq_filter {s : Store} {m : List Contact} (hm : m ≠ [])
    (hr : rootList m ≠ [])
    (hsort : s.contacts.Pairwise (fun a b => a.createdAt < b.createdAt)) :
    get_all_linked_contacts s m = s.contacts.filter (inChains (rootList m)) := by
  simp only [get_all_linked_contacts]
  rw [if_neg (by simpa using hm), if_neg (by simpa using hr)]
  exact sortByCreated_eq_self (hsort.filter _)

theorem wf_dich {s : Store} (hbasic : ∀ c ∈ s.contacts,
      1 ≤ c.id ∧ c.id < s.nextId ∧ c.createdAt < s.now ∧ c.deletedAt = none)
    (hlink : ∀ c ∈ s.contacts,
      (c.linkPrecedence = "primary" ∧ c.linkedId = none) ∨
      (c.linkPrecedence = "secondary" ∧
        ∃ d ∈ s.contacts, c.linkedId = some d.id ∧ d.createdAt < c.createdAt)) :
    ∀ x ∈ s.contacts, x.linkPrecedence = "primary" ∨
      ∃ j, x.linkedId = some j ∧ j ≠ 0 := by
  intro x hx
  rcases hlink x hx with ⟨hp, _⟩ | ⟨_, d, hd, hld, _⟩
  · exact Or.inl hp
  · refine Or.inr ⟨d.id, hld, ?_⟩
    have := (hbasic d hd).1
    omega

theorem consolidate_of_min {l : List Contact} {mr : Contact}
    (h : minByCreated l = some mr) :
    ∃ r, consolidate_contacts l = some r ∧ r.primaryContatctId = mr.id := by
  unfold consolidate_contacts
  rw [h]
  exact ⟨_, rfl, rfl⟩

theorem consolidate_id_of {l : List Contact} {r : ContactResponse}
    (h : consolidate_contacts l = some r) :
    ∃ mr, minByCreated l = some mr ∧ r.primaryContatctId = mr.id := by
  unfold consolidate_contacts at h
  split at h
  · cases h
  next mr hmr =>
    refine ⟨mr, hmr, ?_⟩
    obtain ⟨rfl⟩ : _ = r := Option.some.inj h
    rfl

theorem minByCreated_eq_of_sorted_min {l : List Contact} {m : Contact}
    (hsort : l.Pairwise (fun a b => a.createdAt < b.createdAt)) (hm : m ∈ l)
    (hmin : ∀ y ∈ l, m.createdAt ≤ y.createdAt) : minByCreated l = some m := by
  cases l with
  | nil => cases hm
  | cons c cs =>
    rw [minByCreated_sorted hsort]
    congr
    rcases List.mem_cons.mp hm with rfl | hm'
    · rfl
    · have h1 := (List.pairwise_cons.mp hsort).1 m hm'
      have h2 := hmin c (by simp)
      omega

theorem minByCreated_facts {l : List Contact} {m : Contact}
    (hsort : l.Pairwise (fun a b => a.createdAt < b.createdAt))
    (h : minByCreated l = some m) :
    m ∈ l ∧ ∀ y ∈ l, m.createdAt ≤ y.createdAt := by
  cases l with
  | nil => cases h
  | cons c cs =>
    rw [minByCreated_sorted hsort] at h
    obtain rfl : c = m := Option.some.inj h
    refine ⟨List.mem_cons_self c cs, ?_⟩
    intro y hy
    rcases List.mem_cons.mp hy with rfl | hy'
    · exact le_refl _
    · exact le_of_lt ((List.pairwise_cons.mp hsort).1 y hy')

theorem identify_known_eval {s : Store} {e p : Option String} {resp : ContactResponse}
    (hg : ¬ (!truthy e && !truthy p) = true)
    (hne : find_contacts_by_email_or_phone s e p ≠ [])
    (hkn : ((get_all_linked_contacts s (find_contacts_by_email_or_phone s e p)).map
        (fun c => (c.email, c.phoneNumber))).contains (e, p) = true)
    (hcons : consolidate_contacts
        (get_all_linked_contacts s (find_contacts_by_email_or_phone s e p)) = some resp) :
    identify_contact s e p = .ok (resp, s) := by
  simp only [identify_contact]
  rw [if_neg hg, if_neg (by simpa using hne), if_pos hkn, hcons]

/-- **C3 (amended).** On any store satisfying the resolver-maintained
well-formedness invariant `WF` — in particular any store reachable from the
empty store by successful calls — two successive `Resolve` calls with the
identical `(email, phone)` pair report the same `primaryContactId`, and the
second call performs no write at all: its result store is exactly the store
the first call left. -/
theorem c3_idempotent_on_wellformed (s : Store) (e p : Option String)
    (r1 : ContactResponse) (s1 : Store) (hWF : WF s)
    (h1 : identify_contact s e p = .ok (r1, s1)) :
    ∃ r2, identify_contact s1 e p = .ok (r2, s1) ∧
      r2.primaryContatctId = r1.primaryContatctId := by
  obtain ⟨hsort, hids, hbasic, hlink⟩ := hWF
  obtain ⟨hv, hcase⟩ := identify_cases h1
  have hg : ¬ (!truthy e && !truthy p) = true := by
    rcases hv with h | h <;> simp [h]
  rcases hcase with ⟨hemp, hr, hs'⟩ | ⟨hne, hknown, hcons, hs'⟩ |
    ⟨hne, hknown, m, hmin, hs', hcons⟩
  · -- no-match: the first call created the primary row; the repeat matches
    -- exactly that row, finds the pair known, and reports its id again.
    obtain ⟨hcc, -, -, -⟩ := create_contact_store s e p none "primary"
    have hs1c : s1.contacts = s.contacts ++ [newRow s e p none "primary"] := by
      rw [hs']
      exact hcc
    have hfil0 : s.contacts.filter (matchesObs e p) = [] := by
      have hfe := find_eq_filter hv hsort
      rw [hemp] at hfe
      exact hfe.symm
    have hmatchN : matchesObs e p (newRow s e p none "primary") = true := by
      rw [matchesObs_iff]
      refine ⟨rfl, ?_⟩
      rcases hv with h | h
      · exact Or.inl ⟨truthy_isSome h, rfl⟩
      · exact Or.inr ⟨truthy_isSome h, rfl⟩
    have hs1sorted : s1.contacts.Pairwise (fun a b => a.createdAt < b.createdAt) := by
      rw [hs1c, List.pairwise_append]
      refine ⟨hsort, by simp, ?_⟩
      intro a ha b hb
      have hbN : b = newRow s e p none "primary" := by simpa using hb
      subst hbN
      exact (hbasic a ha).2.2.1
    have hfind1 : find_contacts_by_email_or_phone s1 e p =
        [newRow s e p none "primary"] := by
      rw [find_eq_filter hv hs1sorted, hs1c, List.filter_append, hfil0,
        List.nil_append]
      simp [hmatchN]
    have hroots1 : rootList [newRow s e p none "primary"] = [s.nextId] := rfl
    have hA2 : get_all_linked_contacts s1 [newRow s e p none "primary"] =
        [newRow s e p none "primary"] := by
      rw [get_all_eq_filter (by simp) (by rw [hroots1]; simp) hs1sorted, hroots1,
        hs1c, List.filter_append]
      have hold : s.contacts.filter (inChains [s.nextId]) = [] := by
        rw [List.filter_eq_nil_iff]
        intro c hc htrue
        rw [inChains_iff] at htrue
        obtain ⟨-, hcase2⟩ := htrue
        rcases hcase2 with hcid | ⟨j, hj, hjm⟩
        · have hlt : c.id = s.nextId := by simpa using hcid
          have := (hbasic c hc).2.1
          omega
        · have hjN : j = s.nextId := by simpa using hjm
          rcases hlink c hc with ⟨-, hnone⟩ | ⟨-, d, hd, hld, -⟩
          · rw [hnone] at hj
            cases hj
          · rw [hld] at hj
            have hdj : d.id = j := Option.some.inj hj
            rw [hjN] at hdj
            have := (hbasic d hd).2.1
            omega
      rw [hold, List.nil_append]
      have hNin : inChains [s.nextId] (newRow s e p none "primary") = true := by
        rw [inChains_iff]
        exact ⟨rfl, Or.inl (by simp [newRow])⟩
      simp [hNin]
    have hkn2 : (([newRow s e p none "primary"] : List Contact).map
        (fun c => (c.email, c.phoneNumber))).contains (e, p) = true := by
      simp [newRow]
    obtain ⟨resp2, hc2, hc2id⟩ := consolidate_of_min
      (rfl : minByCreated [newRow s e p none "primary"] =
        some (newRow s e p none "primary"))
    refine ⟨resp2, ?_, ?_⟩
    · apply identify_known_eval hg
      · rw [hfind1]
        simp
      · rw [hfind1, hA2]
        exact hkn2
      · rw [hfind1, hA2]
        exact hc2
    · rw [hc2id, hr]
      rfl
  · -- exact pair already known: the first call wrote nothing, the second
    -- call is a literal re-run of the first.
    subst hs'
    exact ⟨r1, h1, rfl⟩
  · -- novel pair: the first call possibly demoted primaries and inserted the
    -- secondary S linked to the oldest member m; the second call finds S,
    -- sees the pair as known, writes nothing, and reports m's id again.
    have hEfil : find_contacts_by_email_or_phone s e p =
        s.contacts.filter (matchesObs e p) := find_eq_filter hv hsort
    have hEsub : ∀ x ∈ find_contacts_by_email_or_phone s e p, x ∈ s.contacts :=
      mem_find_subset
    have hRne : rootList (find_contacts_by_email_or_phone s e p) ≠ [] :=
      rootList_ne_nil (fun x hx => wf_dich hbasic hlink x (hEsub x hx)) hne
    have hAfil : get_all_linked_contacts s (find_contacts_by_email_or_phone s e p) =
        s.contacts.filter (inChains (rootList (find_contacts_by_email_or_phone s e p))) :=
      get_all_eq_filter hne hRne hsort
    have hAsub : ∀ x ∈ get_all_linked_contacts s (find_contacts_by_email_or_phone s e p),
        x ∈ s.contacts := by
      rw [hAfil]
      intro x hx
      exact List.mem_of_mem_filter hx
    have hAsorted : (get_all_linked_contacts s
        (find_contacts_by_email_or_phone s e p)).Pairwise
          (fun a b => a.createdAt < b.createdAt) := by
      rw [hAfil]
      exact hsort.filter _
    obtain ⟨hmmem, hmle⟩ := minByCreated_facts hAsorted hmin
    have hms : m ∈ s.contacts := hAsub m hmmem
    have hmlt_now : m.createdAt < s.now := (hbasic m hms).2.2.1
    -- the oldest member's id is itself a root id
    have hmchain : inChains (rootList (find_contacts_by_email_or_phone s e p)) m
        = true := by
      have hmf : m ∈ s.contacts.filter
          (inChains (rootList (find_contacts_by_email_or_phone s e p))) := by
        rw [← hAfil]
        exact hmmem
      exact (List.mem_filter.mp hmf).2
    have hmid : m.id ∈ rootList (find_contacts_by_email_or_phone s e p) := by
      rcases (inChains_iff.mp hmchain).2 with h | ⟨j, hj, hjR⟩
      · exact h
      · exfalso
        rcases hlink m hms with ⟨-, hnone⟩ | ⟨-, d, hd, hld, hdlt⟩
        · rw [hnone] at hj
          cases hj
        · rw [hld] at hj
          obtain rfl : d.id = j := Option.some.inj hj
          have hdA : d ∈ get_all_linked_contacts s
              (find_contacts_by_email_or_phone s e p) := by
            rw [hAfil, List.mem_filter]
            refine ⟨hd, ?_⟩
            rw [inChains_iff]
            exact ⟨(hbasic d hd).2.2.2, Or.inl hjR⟩
          have := hmle d hdA
          omega
    -- every primary member of the candidate set has its id among the roots
    have hprimroot : ∀ x ∈ get_all_linked_contacts s
        (find_contacts_by_email_or_phone s e p), x.linkPrecedence = "primary" →
        x.id ∈ rootList (find_contacts_by_email_or_phone s e p) := by
      intro x hxA hxprim
      have hxs : x ∈ s.contacts := hAsub x hxA
      have hchain : inChains (rootList (find_contacts_by_email_or_phone s e p)) x
          = true := by
        have hxf : x ∈ s.contacts.filter
            (inChains (rootList (find_contacts_by_email_or_phone s e p))) := by
          rw [← hAfil]
          exact hxA
        exact (List.mem_filter.mp hxf).2
      rcases (inChains_iff.mp hchain).2 with h | ⟨j, hj, -⟩
      · exact h
      · exfalso
        rcases hlink x hxs with ⟨-, hnone⟩ | ⟨hsec, -⟩
        · rw [hnone] at hj
          cases hj
        · rw [hxprim] at hsec
          exact absurd hsec (by decide)
    -- facts about the oldest primary, when the demotion pass ran
    have hofacts : ∀ o, minByCreated ((get_all_linked_contacts s
          (find_contacts_by_email_or_phone s e p)).filter
            (fun x => x.linkPrecedence == "primary")) = some o →
        o ∈ get_all_linked_contacts s (find_contacts_by_email_or_phone s e p) ∧
        o.linkPrecedence = "primary" ∧
        o.id ∈ rootList (find_contacts_by_email_or_phone s e p) := by
      intro o ho
      obtain ⟨hoP, -⟩ := minByCreated_facts (hAsorted.filter _) ho
      have hoA : o ∈ get_all_linked_contacts s
          (find_contacts_by_email_or_phone s e p) := List.mem_of_mem_filter hoP
      have hoprim : o.linkPrecedence = "primary" := by
        simpa using (List.mem_filter.mp hoP).2
      exact ⟨hoA, hoprim, hprimroot o hoA hoprim⟩
    -- the oldest member m is never demoted
    have hfm : demApply s (get_all_linked_contacts s
        (find_contacts_by_email_or_phone s e p)) m = m := by
      rcases demApply_cases s
          (get_all_linked_contacts s (find_contacts_by_email_or_phone s e p)) m with
        heq | ⟨o, hmino, hany, heq⟩
      · exact heq
      · exfalso
        obtain ⟨hoA, hoprim, -⟩ := hofacts o hmino
        have htp := trigger_primary hids hAsub hms hany
        have hmP : m ∈ (get_all_linked_contacts s
            (find_contacts_by_email_or_phone s e p)).filter
              (fun x => x.linkPrecedence == "primary") :=
          List.mem_filter.mpr ⟨hmmem, by simp [htp.1]⟩
        obtain ⟨-, hole⟩ := minByCreated_facts (hAsorted.filter _) hmino
        have h1 : o.createdAt ≤ m.createdAt := hole m hmP
        have h2 : m.createdAt ≤ o.createdAt := hmle o hoA
        have hmo : m = o :=
          eq_of_createdAt_eq_of_sorted hAsorted hmmem hoA (by omega)
        exact htp.2 (by rw [hmo])
    -- a row hit by the demotion pass is a member of the candidate set
    have htrigA : ∀ x ∈ s.contacts, ∀ o : Contact,
        ((get_all_linked_contacts s
          (find_contacts_by_email_or_phone s e p)).filter
            (fun y => y.linkPrecedence == "primary")).any
          (fun p2 => decide (p2.id ≠ o.id) && (x.id == p2.id)) = true →
        x ∈ get_all_linked_contacts s (find_contacts_by_email_or_phone s e p) := by
      intro x hx o hany
      rw [List.any_eq_true] at hany
      obtain ⟨p2, hp2, hcond⟩ := hany
      rw [Bool.and_eq_true] at hcond
      have hxp2 : x = p2 := List.inj_on_of_nodup_map hids hx
        (hAsub p2 (List.mem_of_mem_filter hp2)) (by simpa using hcond.2)
      rw [hxp2]
      exact List.mem_of_mem_filter hp2
    -- the store the first call left behind
    obtain ⟨hdc, hdnow, hdnext⟩ := demotePass_char s
      (get_all_linked_contacts s (find_contacts_by_email_or_phone s e p))
    obtain ⟨hcc2, hcnext2, hcnow2, -⟩ := create_contact_store
      (demotePass s (get_all_linked_contacts s (find_contacts_by_email_or_phone s e p)))
      e p (some m.id) "secondary"
    have hSrow : newRow (demotePass s (get_all_linked_contacts s
        (find_contacts_by_email_or_phone s e p))) e p (some m.id) "secondary" =
        newRow s e p (some m.id) "secondary" := by
      unfold newRow
      rw [hdnext, hdnow]
    have hs1c : s1.contacts = s.contacts.map (demApply s (get_all_linked_contacts s
        (find_contacts_by_email_or_phone s e p))) ++
        [newRow s e p (some m.id) "secondary"] := by
      rw [hs', hcc2, hdc, hSrow]
    -- the new store is sorted
    have hmapsorted : (s.contacts.map (demApply s (get_all_linked_contacts s
        (find_contacts_by_email_or_phone s e p)))).Pairwise
          (fun a b => a.createdAt < b.createdAt) := by
      refine hsort.map _ (fun a b hab => ?_)
      obtain ⟨-, -, -, f4a, -⟩ := demApply_fields s
        (get_all_linked_contacts s (find_contacts_by_email_or_phone s e p)) a
      obtain ⟨-, -, -, f4b, -⟩ := demApply_fields s
        (get_all_linked_contacts s (find_contacts_by_email_or_phone s e p)) b
      rw [f4a, f4b]
      exact hab
    have hs1sorted : s1.contacts.Pairwise (fun a b => a.createdAt < b.createdAt) := by
      rw [hs1c, List.pairwise_append]
      refine ⟨hmapsorted, by simp, ?_⟩
      intro a ha b hb
      have hbS : b = newRow s e p (some m.id) "secondary" := by simpa using hb
      subst hbS
      obtain ⟨x, hx, rfl⟩ := List.mem_map.mp ha
      obtain ⟨-, -, -, f4, -⟩ := demApply_fields s
        (get_all_linked_contacts s (find_contacts_by_email_or_phone s e p)) x
      show (demApply s (get_all_linked_contacts s
        (find_contacts_by_email_or_phone s e p)) x).createdAt < s.now
      rw [f4]
      exact (hbasic x hx).2.2.1
    -- the repeat's match set: the (rewritten) old matches plus S
    have hmatchS : matchesObs e p (newRow s e p (some m.id) "secondary") = true := by
      rw [matchesObs_iff]
      refine ⟨rfl, ?_⟩
      rcases hv with h | h
      · exact Or.inl ⟨truthy_isSome h, rfl⟩
      · exact Or.inr ⟨truthy_isSome h, rfl⟩
    have hfind2 : find_contacts_by_email_or_phone s1 e p =
        (find_contacts_by_email_or_phone s e p).map
          (demApply s (get_all_linked_contacts s
            (find_contacts_by_email_or_phone s e p))) ++
        [newRow s e p (some m.id) "secondary"] := by
      rw [find_eq_filter hv hs1sorted, hs1c, List.filter_append]
      congr 1
      · rw [List.filter_map]
        have hcongr : List.filter (matchesObs e p ∘ demApply s
              (get_all_linked_contacts s (find_contacts_by_email_or_phone s e p)))
              s.contacts =
            List.filter (matchesObs e p) s.contacts :=
          List.filter_congr (fun x _ => by
            simp only [Function.comp_apply, matchesObs_demApply])
        rw [hcongr, ← hEfil]
      · simp [hmatchS]
    -- the repeat's root ids all come from the original root set
    have hR2sub : ∀ j ∈ rootList ((find_contacts_by_email_or_phone s e p).map
          (demApply s (get_all_linked_contacts s
            (find_contacts_by_email_or_phone s e p))) ++
          [newRow s e p (some m.id) "secondary"]),
        j ∈ rootList (find_contacts_by_email_or_phone s e p) := by
      intro j hj
      rw [mem_rootList] at hj
      obtain ⟨c2, hc2mem, hcase2⟩ := hj
      rw [List.mem_append] at hc2mem
      rcases hc2mem with hc2map | hc2S
      · obtain ⟨x, hxE, rfl⟩ := List.mem_map.mp hc2map
        rcases demApply_cases s
            (get_all_linked_contacts s (find_contacts_by_email_or_phone s e p)) x with
          heq | ⟨o, hmino, hany, heq⟩
        · rw [heq] at hcase2
          rw [mem_rootList]
          exact ⟨x, hxE, hcase2⟩
        · rw [heq] at hcase2
          rcases hcase2 with ⟨hp2, -⟩ | ⟨-, hlid, -⟩
          · exact absurd (show ("secondary" : String) = "primary" from hp2) (by decide)
          · have h2 : some o.id = some j := hlid
            obtain rfl : o.id = j := Option.some.inj h2
            exact (hofacts o hmino).2.2
      · have hc2 : c2 = newRow s e p (some m.id) "secondary" := by simpa using hc2S
        subst hc2
        rcases hcase2 with ⟨hp2, -⟩ | ⟨-, hlid, -⟩
        · exact absurd (show ("secondary" : String) = "primary" from hp2) (by decide)
        · have h2 : some m.id = some j := hlid
          obtain rfl : m.id = j := Option.some.inj h2
          exact hmid
    -- S appears in the repeat's match set and contributes m.id as a root
    have hSinM2 : newRow s e p (some m.id) "secondary" ∈
        (find_contacts_by_email_or_phone s e p).map
          (demApply s (get_all_linked_contacts s
            (find_contacts_by_email_or_phone s e p))) ++
        [newRow s e p (some m.id) "secondary"] :=
      List.mem_append_right _ (by simp)
    have hmidR2 : m.id ∈ rootList ((find_contacts_by_email_or_phone s e p).map
          (demApply s (get_all_linked_contacts s
            (find_contacts_by_email_or_phone s e p))) ++
        [newRow s e p (some m.id) "secondary"]) := by
      rw [mem_rootList]
      refine ⟨newRow s e p (some m.id) "secondary", hSinM2,
        Or.inr ⟨show ¬ ("secondary" : String) = "primary" by decide, rfl, ?_⟩⟩
      have := (hbasic m hms).1
      omega
    -- the first minimum of any chain re-read (with roots among the original
    -- root set, m.id included) is m itself
    have hminA2 : ∀ (RR : List Nat),
        (∀ j ∈ RR, j ∈ rootList (find_contacts_by_email_or_phone s e p)) →
        m.id ∈ RR →
        minByCreated (s1.contacts.filter (inChains RR)) = some m := by
      intro RR hRR hmRR
      apply minByCreated_eq_of_sorted_min (hs1sorted.filter _)
      · rw [List.mem_filter]
        constructor
        · rw [hs1c]
          exact List.mem_append_left _ (List.mem_map.mpr ⟨m, hms, hfm⟩)
        · rw [inChains_iff]
          exact ⟨(hbasic m hms).2.2.2, Or.inl hmRR⟩
      · intro y hy
        rw [List.mem_filter] at hy
        obtain ⟨hy1, hy2⟩ := hy
        rw [hs1c, List.mem_append] at hy1
        rcases hy1 with hymap | hyS
        · obtain ⟨x, hxs, rfl⟩ := List.mem_map.mp hymap
          obtain ⟨-, -, -, fcr, -⟩ := demApply_fields s
            (get_all_linked_contacts s (find_contacts_by_email_or_phone s e p)) x
          rw [fcr]
          rcases demApply_cases s
              (get_all_linked_contacts s (find_contacts_by_email_or_phone s e p)) x with
            heq | ⟨o, hmino, hany, heq⟩
          · rw [heq] at hy2
            have hxA : x ∈ get_all_linked_contacts s
                (find_contacts_by_email_or_phone s e p) := by
              rw [hAfil, List.mem_filter]
              refine ⟨hxs, ?_⟩
              rw [inChains_iff] at hy2 ⊢
              obtain ⟨hd, hcs⟩ := hy2
              refine ⟨hd, ?_⟩
              rcases hcs with h | ⟨j, hj, hjR⟩
              · exact Or.inl (hRR _ h)
              · exact Or.inr ⟨j, hj, hRR _ hjR⟩
            exact hmle x hxA
          · exact hmle x (htrigA x hxs o hany)
        · have hyS2 : y = newRow s e p (some m.id) "secondary" := by simpa using hyS
          rw [hyS2]
          exact le_of_lt hmlt_now
    -- the first call's reported id is m.id
    have hA1e : get_all_linked_contacts s1 (find_contacts_by_email_or_phone s e p) =
        s1.contacts.filter (inChains (rootList (find_contacts_by_email_or_phone s e p))) :=
      get_all_eq_filter hne hRne hs1sorted
    have hr1id : r1.primaryContatctId = m.id := by
      obtain ⟨mr, hmr, hmr2⟩ := consolidate_id_of hcons
      rw [hA1e] at hmr
      obtain rfl : m = mr := Option.some.inj
        ((hminA2 (rootList (find_contacts_by_email_or_phone s e p))
          (fun j h => h) hmid).symm.trans hmr)
      exact hmr2
    -- the second call: pair known, nothing written, same id reported
    have hM2ne : (find_contacts_by_email_or_phone s e p).map
          (demApply s (get_all_linked_contacts s
            (find_contacts_by_email_or_phone s e p))) ++
        [newRow s e p (some m.id) "secondary"] ≠ [] := by
      simp
    have hR2ne : rootList ((find_contacts_by_email_or_phone s e p).map
          (demApply s (get_all_linked_contacts s
            (find_contacts_by_email_or_phone s e p))) ++
        [newRow s e p (some m.id) "secondary"]) ≠ [] :=
      List.ne_nil_of_mem hmidR2
    have hA2e : get_all_linked_contacts s1
        ((find_contacts_by_email_or_phone s e p).map
          (demApply s (get_all_linked_contacts s
            (find_contacts_by_email_or_phone s e p))) ++
         [newRow s e p (some m.id) "secondary"]) =
        s1.contacts.filter (inChains (rootList
          ((find_contacts_by_email_or_phone s e p).map
            (demApply s (get_all_linked_contacts s
              (find_contacts_by_email_or_phone s e p))) ++
           [newRow s e p (some m.id) "secondary"]))) :=
      get_all_eq_filter hM2ne hR2ne hs1sorted
    have hminM2 : minByCreated (s1.contacts.filter (inChains (rootList
        ((find_contacts_by_email_or_phone s e p).map
          (demApply s (get_all_linked_contacts s
            (find_contacts_by_email_or_phone s e p))) ++
         [newRow s e p (some m.id) "secondary"])))) = some m :=
      hminA2 _ hR2sub hmidR2
    obtain ⟨resp2, hc2, hc2id⟩ := consolidate_of_min hminM2
    have hSs1 : newRow s e p (some m.id) "secondary" ∈ s1.contacts := by
      rw [hs1c]
      exact List.mem_append_right _ (by simp)
    have hSA2 : newRow s e p (some m.id) "secondary" ∈
        s1.contacts.filter (inChains (rootList
          ((find_contacts_by_email_or_phone s e p).map
            (demApply s (get_all_linked_contacts s
              (find_contacts_by_email_or_phone s e p))) ++
           [newRow s e p (some m.id) "secondary"]))) := by
      rw [List.mem_filter]
      refine ⟨hSs1, ?_⟩
      rw [inChains_iff]
      exact ⟨rfl, Or.inr ⟨m.id, rfl, hmidR2⟩⟩
    have hkn2 : ((s1.contacts.filter (inChains (rootList
        ((find_contacts_by_email_or_phone s e p).map
          (demApply s (get_all_linked_contacts s
            (find_contacts_by_email_or_phone s e p))) ++
         [newRow s e p (some m.id) "secondary"])))).map
        (fun c => (c.email, c.phoneNumber))).contains (e, p) = true := by
      have hpair : ((e, p) : Option String × Option String) ∈
          (s1.contacts.filter (inChains (rootList
            ((find_contacts_by_email_or_phone s e p).map
              (demApply s (get_all_linked_contacts s
                (find_contacts_by_email_or_phone s e p))) ++
             [newRow s e p (some m.id) "secondary"])))).map
          (fun c => (c.email, c.phoneNumber)) :=
        List.mem_map.mpr ⟨newRow s e p (some m.id) "secondary", hSA2, rfl⟩
      simpa using hpair
    refine ⟨resp2, ?_, by rw [hc2id, hr1id]⟩
    apply identify_known_eval hg
    · rw [hfind2]
      simp
    · rw [hfind2, hA2e]
      exact hkn2
    · rw [hfind2, hA2e]
      exact hc2

/-- Witness for the amended C3 theorem: repeating `Resolve(a, 1)` on the
empty store. -/
theorem c3_idempotent_on_wellformed_witness :
    (WF emptyStore ∧ identify_contact emptyStore (some "a") (some "1") =
      .ok (oneResp, oneContactStore)) ∧
    ∃ r2, identify_contact oneContactStore (some "a") (some "1") =
        .ok (r2, oneContactStore) ∧
      r2.primaryContatctId = oneResp.primaryContatctId :=
  ⟨⟨⟨by decide, by decide, by decide, by decide⟩, by rfl⟩,
    c3_idempotent_on_wellformed emptyStore (some "a") (some "1") oneResp oneContactStore
      ⟨by decide, by decide, by decide, by decide⟩ (by rfl)⟩

/-! ### Exact matching without normalization -/

/-- Evaluation of the terminal no-match branch: with a valid observation and
an empty lookup, the call appends exactly the new primary row (the
observation stored verbatim) and returns the fresh single-contact view. -/
theorem identify_no_match_eval (s : Store) (e p : Option String)
    (hv : truthy e = true ∨ truthy p = true)
    (hempty : find_contacts_by_email_or_phone s e p = []) :
    identify_contact s e p =
      .ok (newContactView e p s.nextId,
        { contacts := s.contacts ++ [newRow s e p none "primary"],
          nextId := s.nextId + 1, now := s.now + 1 }) := by
  have hg : ¬ (!truthy e && !truthy p) = true := by
    rcases hv with h | h <;> simp [h]
  have hie : (find_contacts_by_email_or_phone s e p).isEmpty = true := by
    simp [hempty]
  simp only [identify_contact, if_neg hg, if_pos hie]
  rfl

/-- **C10.** Matching is exact string equality on the stored values with no
trimming or case normalization anywhere in the pipeline, for every store and
every observation.  (1) The lookup returns a stored row exactly when the
row's stored email or phone is string-equal to the given non-null value (the
row being non-deleted) — values differing in letter case or surrounding
whitespace never match.  (2) Whenever a successful call grows the store, the
appended row carries the observation's email and phone verbatim.  (3) If two
observations match nothing stored and neither field of the second is
string-equal to the corresponding field of the first — e.g. they differ only
in letter case or surrounding whitespace — they never link into one chain:
each call creates its own independent primary (linkedId null, no
secondaries in the second view).  (4) An observation whose only field is any
non-empty — in particular whitespace-only — email passes validation on every
store, and when nothing matches it creates a contact storing that string
verbatim. -/
theorem c10_exact_matching_no_normalization :
    (∀ (s : Store) (e p : Option String) (c : Contact),
      truthy e = true ∨ truthy p = true →
      (c ∈ find_contacts_by_email_or_phone s e p ↔
        (c ∈ s.contacts ∧ c.deletedAt = none ∧
          ((e.isSome = true ∧ c.email = e) ∨
            (p.isSome = true ∧ c.phoneNumber = p))))) ∧
    (∀ (s : Store) (e p : Option String) (r : ContactResponse) (s' : Store),
      identify_contact s e p = .ok (r, s') →
      s'.contacts.length = s.contacts.length + 1 →
      ∃ c, s'.contacts.getLast? = some c ∧ c.email = e ∧ c.phoneNumber = p) ∧
    (∀ (s : Store) (e1 p1 e2 p2 : Option String),
      truthy e1 = true ∨ truthy p1 = true →
      truthy e2 = true ∨ truthy p2 = true →
      find_contacts_by_email_or_phone s e1 p1 = [] →
      find_contacts_by_email_or_phone s e2 p2 = [] →
      (e2.isSome = true → e1 ≠ e2) →
      (p2.isSome = true → p1 ≠ p2) →
      identify_contact s e1 p1 =
        .ok (newContactView e1 p1 s.nextId,
          { contacts := s.contacts ++ [newRow s e1 p1 none "primary"],
            nextId := s.nextId + 1, now := s.now + 1 }) ∧
      identify_contact (runIdentify s e1 p1) e2 p2 =
        .ok (newContactView e2 p2 (runIdentify s e1 p1).nextId,
          { contacts := (runIdentify s e1 p1).contacts ++
              [newRow (runIdentify s e1 p1) e2 p2 none "primary"],
            nextId := (runIdentify s e1 p1).nextId + 1,
            now := (runIdentify s e1 p1).now + 1 })) ∧
    (∀ (s : Store) (w : String), w ≠ "" →
      identify_contact s (some w) none ≠ .error .invalidInput ∧
      (find_contacts_by_email_or_phone s (some w) none = [] →
        identify_contact s (some w) none =
          .ok (newContactView (some w) none s.nextId,
            { contacts := s.contacts ++ [newRow s (some w) none none "primary"],
              nextId := s.nextId + 1, now := s.now + 1 }))) := by
  refine ⟨?_, ?_, ?_, ?_⟩
  · intro s e p c hv
    unfold find_contacts_by_email_or_phone
    rw [if_neg (by rcases hv with h | h <;> simp [h])]
    simp only [mem_sortByCreated, List.mem_filter, matchesObs_iff]
  · intro s e p r s' h hlen
    obtain ⟨-, hcase⟩ := identify_cases h
    rcases hcase with ⟨-, -, hs'⟩ | ⟨-, -, -, hs'⟩ | ⟨-, -, m, -, hs', -⟩
    · refine ⟨newRow s e p none "primary", ?_, rfl, rfl⟩
      rw [hs', (create_contact_store s e p none "primary").1]
      exact List.getLast?_concat _
    · rw [hs'] at hlen
      omega
    · refine ⟨newRow (demotePass s (get_all_linked_contacts s
          (find_contacts_by_email_or_phone s e p))) e p (some m.id) "secondary",
        ?_, rfl, rfl⟩
      rw [hs', (create_contact_store _ e p (some m.id) "secondary").1]
      exact List.getLast?_concat _
  · intro s e1 p1 e2 p2 hv1 hv2 hemp1 hemp2 hne hnp
    have h1 := identify_no_match_eval s e1 p1 hv1 hemp1
    have hrun : runIdentify s e1 p1 =
        { contacts := s.contacts ++ [newRow s e1 p1 none "primary"],
          nextId := s.nextId + 1, now := s.now + 1 } := by
      unfold runIdentify
      rw [h1]
    have hfil2 : s.contacts.filter (matchesObs e2 p2) = [] := by
      unfold find_contacts_by_email_or_phone at hemp2
      rw [if_neg (by rcases hv2 with h | h <;> simp [h])] at hemp2
      exact eq_nil_of_sortByCreated_eq_nil hemp2
    have hrow : matchesObs e2 p2 (newRow s e1 p1 none "primary") = false := by
      cases hb : matchesObs e2 p2 (newRow s e1 p1 none "primary") with
      | false => rfl
      | true =>
        exfalso
        rw [matchesObs_iff] at hb
        rcases hb.2 with ⟨hsome, heq⟩ | ⟨hsome, heq⟩
        · exact hne hsome (show e1 = e2 from heq)
        · exact hnp hsome (show p1 = p2 from heq)
    have hemp2' : find_contacts_by_email_or_phone (runIdentify s e1 p1) e2 p2 = [] := by
      rw [hrun]
      unfold find_contacts_by_email_or_phone
      rw [if_neg (by rcases hv2 with h | h <;> simp [h])]
      show sortByCreated
        ((s.contacts ++ [newRow s e1 p1 none "primary"]).filter (matchesObs e2 p2)) = []
      rw [List.filter_append, hfil2, List.nil_append]
      simp [List.filter_cons, hrow, sortByCreated]
    exact ⟨h1, identify_no_match_eval (runIdentify s e1 p1) e2 p2 hv2 hemp2'⟩
  · intro s w hw
    have htw : truthy (some w) = true := by
      simp [truthy, hw]
    refine ⟨?_, ?_⟩
    · intro hcon
      rw [identify_error_classify] at hcon
      simp [htw] at hcon
    · intro hempty
      exact identify_no_match_eval s (some w) none (Or.inl htw) hempty

/-- Witness for C10: the exact-matching characterization instantiated at a
case-variant lookup (`a@x.com` against a stored `A@X.com`), verbatim storage
of a whitespace-only email, independent chains for the case-variant pair,
and acceptance of the whitespace-only observation. -/
theorem c10_exact_matching_no_normalization_witness :
    ((truthy (some "a@x.com") = true ∨ truthy (none : Option String) = true) ∧
      (caseRow ∈ find_contacts_by_email_or_phone caseStore (some "a@x.com") none ↔
        (caseRow ∈ caseStore.contacts ∧ caseRow.deletedAt = none ∧
          (((some "a@x.com" : Option String).isSome = true ∧
              caseRow.email = some "a@x.com") ∨
            ((none : Option String).isSome = true ∧ caseRow.phoneNumber = none))))) ∧
    ((identify_contact emptyStore (some "   ") none =
        .ok (newContactView (some "   ") none 1, wsStore) ∧
      wsStore.contacts.length = emptyStore.contacts.length + 1) ∧
      ∃ c, wsStore.contacts.getLast? = some c ∧
        c.email = some "   " ∧ c.phoneNumber = none) ∧
    ((find_contacts_by_email_or_phone emptyStore (some "A@X.com") none = [] ∧
      find_contacts_by_email_or_phone emptyStore (some "a@x.com") none = [] ∧
      (some "A@X.com" : Option String) ≠ some "a@x.com") ∧
      identify_contact caseStore (some "a@x.com") none =
        .ok (newContactView (some "a@x.com") none caseStore.nextId,
          { contacts := caseStore.contacts ++
              [newRow caseStore (some "a@x.com") none none "primary"],
            nextId := caseStore.nextId + 1, now := caseStore.now + 1 })) ∧
    (("   " : String) ≠ "" ∧
      identify_contact emptyStore (some "   ") none ≠ .error .invalidInput) := by
  refine ⟨⟨by decide, ?_⟩, ⟨⟨by rfl, by rfl⟩, ?_⟩,
    ⟨⟨by decide, by decide, by decide⟩, ?_⟩, ⟨by decide, ?_⟩⟩
  · exact c10_exact_matching_no_normalization.1 caseStore (some "a@x.com") none caseRow
      (Or.inl (by decide))
  · exact c10_exact_matching_no_normalization.2.1 emptyStore (some "   ") none
      (newContactView (some "   ") none 1) wsStore (by rfl) (by rfl)
  · exact (c10_exact_matching_no_normalization.2.2.1 emptyStore (some "A@X.com") none
      (some "a@x.com") none (Or.inl (by decide)) (Or.inl (by decide)) (by decide)
      (by decide) (by decide) (by decide)).2
  · exact (c10_exact_matching_no_normalization.2.2.2 emptyStore "   " (by decide)).1

end Bitespeed
